import Mathlib

/-!
Verification development for the `protocol` repository: a shallow embedding of
the `ExpiringMultiPartyEventClient` event cache
(src/financial-templates-lib/clients/ExpiringMultiPartyEventClient.js),
the allowance-maintenance block and polling loop of the disputer and
liquidator entry points (src/disputer/index.js, src/liquidator's index.js),
together with theorems settling the specification's claims about them.
-/

namespace Protocol

/-- A JavaScript value as it appears in the event objects handled by the
client: either a string payload (addresses, amounts, identifiers are carried
as opaque strings) or JavaScript `undefined` (absent property). -/
inductive JsValue where
  | undef : JsValue
  | str : String → JsValue
deriving DecidableEq, Repr

/-- A JavaScript object's own properties, as an association list.  Property
access on a key that is absent yields `undefined`, which `getProp` models. -/
abbrev JsFields := List (String × JsValue)

/-- JavaScript property access `obj.k`: the value stored under `k`, or
`undefined` when the property is absent. -/
def getProp (vs : JsFields) (k : String) : JsValue :=
  ((vs.find? (fun p => p.1 == k)).map Prod.snd).getD JsValue.undef

/-- A raw event as returned by `web3`'s `getPastEvents`: a transaction hash, a
block number, and the event-specific `returnValues` object. -/
structure RawEvent where
  transactionHash : String
  blockNumber : Nat
  returnValues : JsFields
deriving DecidableEq, Repr

/-- A record stored in one of the client's twelve event arrays: the object
literal pushed by `update`, with its kind-specific named fields. -/
structure EventRecord where
  transactionHash : String
  blockNumber : Nat
  fields : JsFields
deriving DecidableEq, Repr

/-- The object pushed for a `LiquidationCreated` event
(ExpiringMultiPartyEventClient.js lines 96-107). -/
def toLiquidationRecord (e : RawEvent) : EventRecord :=
  { transactionHash := e.transactionHash
    blockNumber := e.blockNumber
    fields := [("sponsor", getProp e.returnValues "sponsor"),
               ("liquidator", getProp e.returnValues "liquidator"),
               ("liquidationId", getProp e.returnValues "liquidationId"),
               ("tokensOutstanding", getProp e.returnValues "tokensOutstanding"),
               ("lockedCollateral", getProp e.returnValues "lockedCollateral"),
               ("liquidatedCollateral", getProp e.returnValues "liquidatedCollateral")] }

/-- The object pushed for a `LiquidationDisputed` event (lines 114-124). -/
def toDisputeRecord (e : RawEvent) : EventRecord :=
  { transactionHash := e.transactionHash
    blockNumber := e.blockNumber
    fields := [("sponsor", getProp e.returnValues "sponsor"),
               ("liquidator", getProp e.returnValues "liquidator"),
               ("disputer", getProp e.returnValues "disputer"),
               ("liquidationId", getProp e.returnValues "liquidationId"),
               ("disputeBondAmount", getProp e.returnValues "disputeBondAmount")] }

/-- The object pushed for a `DisputeSettled` event (lines 131-142). -/
def toDisputeSettlementRecord (e : RawEvent) : EventRecord :=
  { transactionHash := e.transactionHash
    blockNumber := e.blockNumber
    fields := [("caller", getProp e.returnValues "caller"),
               ("sponsor", getProp e.returnValues "sponsor"),
               ("liquidator", getProp e.returnValues "liquidator"),
               ("disputer", getProp e.returnValues "disputer"),
               ("liquidationId", getProp e.returnValues "liquidationId"),
               ("disputeSucceeded", getProp e.returnValues "disputeSucceeded")] }

/-- The object pushed for a `PositionCreated` event (lines 149-157). -/
def toCreateRecord (e : RawEvent) : EventRecord :=
  { transactionHash := e.transactionHash
    blockNumber := e.blockNumber
    fields := [("sponsor", getProp e.returnValues "sponsor"),
               ("collateralAmount", getProp e.returnValues "collateralAmount"),
               ("tokenAmount", getProp e.returnValues "tokenAmount")] }

/-- The object pushed for a `NewSponsor` event (lines 170-176): the sponsor
comes from the raw event, and `collateralAmount`/`tokenAmount` are copied from
the matched `PositionCreated` record `c`. -/
def toNewSponsorRecord (e : RawEvent) (c : EventRecord) : EventRecord :=
  { transactionHash := e.transactionHash
    blockNumber := e.blockNumber
    fields := [("sponsor", getProp e.returnValues "sponsor"),
               ("collateralAmount", getProp c.fields "collateralAmount"),
               ("tokenAmount", getProp c.fields "tokenAmount")] }

/-- The object pushed for a `Deposit` event (lines 184-191). -/
def toDepositRecord (e : RawEvent) : EventRecord :=
  { transactionHash := e.transactionHash
    blockNumber := e.blockNumber
    fields := [("sponsor", getProp e.returnValues "sponsor"),
               ("collateralAmount", getProp e.returnValues "collateralAmount")] }

/-- The object pushed for a `Withdrawal` event (lines 198-205). -/
def toWithdrawRecord (e : RawEvent) : EventRecord :=
  { transactionHash := e.transactionHash
    blockNumber := e.blockNumber
    fields := [("sponsor", getProp e.returnValues "sponsor"),
               ("collateralAmount", getProp e.returnValues "collateralAmount")] }

/-- The object pushed for a `Redeem` event (lines 212-219). -/
def toRedeemRecord (e : RawEvent) : EventRecord :=
  { transactionHash := e.transactionHash
    blockNumber := e.blockNumber
    fields := [("sponsor", getProp e.returnValues "sponsor"),
               ("collateralAmount", getProp e.returnValues "collateralAmount"),
               ("tokenAmount", getProp e.returnValues "tokenAmount")] }

/-- The object pushed for a `RegularFeesPaid` event (lines 227-234). -/
def toRegularFeeRecord (e : RawEvent) : EventRecord :=
  { transactionHash := e.transactionHash
    blockNumber := e.blockNumber
    fields := [("regularFee", getProp e.returnValues "regularFee"),
               ("lateFee", getProp e.returnValues "lateFee")] }

/-- The object pushed for a `FinalFeesPaid` event (lines 241-247). -/
def toFinalFeeRecord (e : RawEvent) : EventRecord :=
  { transactionHash := e.transactionHash
    blockNumber := e.blockNumber
    fields := [("amount", getProp e.returnValues "amount")] }

/-- The object pushed for a `LiquidationWithdrawn` event (lines 254-262). -/
def toLiquidationWithdrawnRecord (e : RawEvent) : EventRecord :=
  { transactionHash := e.transactionHash
    blockNumber := e.blockNumber
    fields := [("caller", getProp e.returnValues "caller"),
               ("withdrawalAmount", getProp e.returnValues "withdrawalAmount"),
               ("liquidationStatus", getProp e.returnValues "liquidationStatus")] }

/-- The object pushed for a `SettleExpiredPosition` event (lines 269-277). -/
def toSettleExpiredPositionRecord (e : RawEvent) : EventRecord :=
  { transactionHash := e.transactionHash
    blockNumber := e.blockNumber
    fields := [("caller", getProp e.returnValues "caller"),
               ("collateralReturned", getProp e.returnValues "collateralReturned"),
               ("tokensBurned", getProp e.returnValues "tokensBurned")] }

/-- The mutable state of one `ExpiringMultiPartyEventClient` instance: the
twelve per-kind event arrays, the cursor `firstBlockToSearch`, and the
last-update timestamp (constructor, lines 22-38). -/
structure ClientState where
  liquidationEvents : List EventRecord
  disputeEvents : List EventRecord
  disputeSettlementEvents : List EventRecord
  newSponsorEvents : List EventRecord
  depositEvents : List EventRecord
  createEvents : List EventRecord
  withdrawEvents : List EventRecord
  redeemEvents : List EventRecord
  regularFeeEvents : List EventRecord
  finalFeeEvents : List EventRecord
  liquidationWithdrawnEvents : List EventRecord
  settleExpiredPositionEvents : List EventRecord
  firstBlockToSearch : Nat
  lastUpdateTimestamp : Nat
deriving DecidableEq, Repr

/-- The state established by the constructor: twelve empty arrays, cursor at
`latestBlockNumber` (defaulting to 0 at call sites), timestamp 0. -/
def initialClientState (latestBlockNumber : Nat) : ClientState :=
  { liquidationEvents := []
    disputeEvents := []
    disputeSettlementEvents := []
    newSponsorEvents := []
    depositEvents := []
    createEvents := []
    withdrawEvents := []
    redeemEvents := []
    regularFeeEvents := []
    finalFeeEvents := []
    liquidationWithdrawnEvents := []
    settleExpiredPositionEvents := []
    firstBlockToSearch := latestBlockNumber
    lastUpdateTimestamp := 0 }

/-- `clearState` (lines 41-54): reassigns each of the twelve arrays to a fresh
empty array; `firstBlockToSearch` and `lastUpdateTimestamp` are not touched. -/
def clearState (s : ClientState) : ClientState :=
  { s with
    liquidationEvents := []
    disputeEvents := []
    disputeSettlementEvents := []
    newSponsorEvents := []
    depositEvents := []
    createEvents := []
    withdrawEvents := []
    redeemEvents := []
    regularFeeEvents := []
    finalFeeEvents := []
    liquidationWithdrawnEvents := []
    settleExpiredPositionEvents := [] }

/-- Accessor `getAllNewSponsorEvents` (line 56). -/
def getAllNewSponsorEvents (s : ClientState) : List EventRecord := s.newSponsorEvents

/-- Accessor `getAllLiquidationEvents` (line 58). -/
def getAllLiquidationEvents (s : ClientState) : List EventRecord := s.liquidationEvents

/-- Accessor `getAllDisputeEvents` (line 60). -/
def getAllDisputeEvents (s : ClientState) : List EventRecord := s.disputeEvents

/-- Accessor `getAllDisputeSettlementEvents` (line 62). -/
def getAllDisputeSettlementEvents (s : ClientState) : List EventRecord := s.disputeSettlementEvents

/-- Accessor `getAllDepositEvents` (line 64). -/
def getAllDepositEvents (s : ClientState) : List EventRecord := s.depositEvents

/-- Accessor `getAllCreateEvents` (line 66). -/
def getAllCreateEvents (s : ClientState) : List EventRecord := s.createEvents

/-- Accessor `getAllWithdrawEvents` (line 68). -/
def getAllWithdrawEvents (s : ClientState) : List EventRecord := s.withdrawEvents

/-- Accessor `getAllRedeemEvents` (line 70). -/
def getAllRedeemEvents (s : ClientState) : List EventRecord := s.redeemEvents

/-- Accessor `getAllRegularFeeEvents` (line 72). -/
def getAllRegularFeeEvents (s : ClientState) : List EventRecord := s.regularFeeEvents

/-- Accessor `getAllFinalFeeEvents` (line 74). -/
def getAllFinalFeeEvents (s : ClientState) : List EventRecord := s.finalFeeEvents

/-- Accessor `getAllLiquidationWithdrawnEvents` (line 76). -/
def getAllLiquidationWithdrawnEvents (s : ClientState) : List EventRecord := s.liquidationWithdrawnEvents

/-- Accessor `getAllSettleExpiredPositionEvents` (line 78). -/
def getAllSettleExpiredPositionEvents (s : ClientState) : List EventRecord := s.settleExpiredPositionEvents

/-- Accessor `getLastUpdateTime` (line 81). -/
def getLastUpdateTime (s : ClientState) : Nat := s.lastUpdateTimestamp

/-- The chain transport's `getPastEvents`: given an event name and the
inclusive `fromBlock`/`toBlock` bounds, the list of raw events returned. -/
abbrev Transport := String → Nat → Nat → List RawEvent

/-- One `getPastEvents` request issued by `update`: event name, `fromBlock`,
`toBlock`. -/
abbrev EventRequest := String × Nat × Nat

/-- The `NewSponsor` loop of `update` (lines 164-177).  `pool` is
`this.createEvents` at that point (all cached `PositionCreated` records, the
ones just appended in this pass included); `acc` is `this.newSponsorEvents`.
For each raw `NewSponsor` event the pool is filtered by exact block-number
equality and the head of the filter result supplies the amounts
(`createEvent[0]`); when the filter result is empty, `createEvent[0]` is
`undefined` and the property access throws, which this embedding models as
`Except.error` carrying the array contents at the throw point (the records
pushed for earlier events of the loop remain pushed). -/
def processNewSponsors (pool : List EventRecord) (acc : List EventRecord) :
    List RawEvent → Except (List EventRecord) (List EventRecord)
  | [] => Except.ok acc
  | e :: rest =>
    match pool.filter (fun c => c.blockNumber == e.blockNumber) with
    | [] => Except.error acc
    | c :: _ => processNewSponsors pool (acc ++ [toNewSponsorRecord e c]) rest

/-- The outcome of one `update` call: either completion, or the consistency
failure thrown from the `NewSponsor` loop.  Both carry the client state as
left by the call (JavaScript mutations performed before a throw persist) and
the list of `getPastEvents` requests issued. -/
inductive UpdateResult where
  | ok : ClientState → List EventRequest → UpdateResult
  | consistencyError : ClientState → List EventRequest → UpdateResult
deriving DecidableEq, Repr

/-- The client state after an `update` call, successful or not. -/
def UpdateResult.state : UpdateResult → ClientState
  | .ok s _ => s
  | .consistencyError s _ => s

/-- The `getPastEvents` requests issued by an `update` call. -/
def UpdateResult.requests : UpdateResult → List EventRequest
  | .ok _ r => r
  | .consistencyError _ r => r

/-- Whether an `update` call ran to completion. -/
def UpdateResult.isOk : UpdateResult → Bool
  | .ok _ _ => true
  | .consistencyError _ _ => false

/-- `update` (lines 83-288).  `f` is the transport's `getPastEvents`, `h` the
result of `web3.eth.getBlockNumber()`, `t` the contract clock value returned
by `getCurrentTime()`.  Events of each kind are fetched over the inclusive
range `[firstBlockToSearch, h]` and appended, in order, in the source's
sequence: LiquidationCreated, LiquidationDisputed, DisputeSettled,
PositionCreated, then the NewSponsor correlation loop, then Deposit,
Withdrawal, Redeem, RegularFeesPaid, FinalFeesPaid, LiquidationWithdrawn,
SettleExpiredPosition; finally the cursor becomes `h + 1` and the timestamp
becomes `t`.  A failure in the NewSponsor loop aborts the call there: the
first five fetches have happened, the first four kinds (and the NewSponsor
records pushed before the failing event) stay appended, and the cursor and
timestamp keep their prior values. -/
def update (s : ClientState) (f : Transport) (h : Nat) (t : Nat) : UpdateResult :=
  let fb := s.firstBlockToSearch
  let s1 := { s with liquidationEvents :=
    s.liquidationEvents ++ (f "LiquidationCreated" fb h).map toLiquidationRecord }
  let s2 := { s1 with disputeEvents :=
    s1.disputeEvents ++ (f "LiquidationDisputed" fb h).map toDisputeRecord }
  let s3 := { s2 with disputeSettlementEvents :=
    s2.disputeSettlementEvents ++ (f "DisputeSettled" fb h).map toDisputeSettlementRecord }
  let s4 := { s3 with createEvents :=
    s3.createEvents ++ (f "PositionCreated" fb h).map toCreateRecord }
  let reqs5 : List EventRequest :=
    [("LiquidationCreated", fb, h), ("LiquidationDisputed", fb, h),
     ("DisputeSettled", fb, h), ("PositionCreated", fb, h), ("NewSponsor", fb, h)]
  match processNewSponsors s4.createEvents s4.newSponsorEvents (f "NewSponsor" fb h) with
  | Except.error partial_ns => UpdateResult.consistencyError { s4 with newSponsorEvents := partial_ns } reqs5
  | Except.ok ns =>
    let s5 := { s4 with newSponsorEvents := ns }
    let s6 := { s5 with depositEvents :=
      s5.depositEvents ++ (f "Deposit" fb h).map toDepositRecord }
    let s7 := { s6 with withdrawEvents :=
      s6.withdrawEvents ++ (f "Withdrawal" fb h).map toWithdrawRecord }
    let s8 := { s7 with redeemEvents :=
      s7.redeemEvents ++ (f "Redeem" fb h).map toRedeemRecord }
    let s9 := { s8 with regularFeeEvents :=
      s8.regularFeeEvents ++ (f "RegularFeesPaid" fb h).map toRegularFeeRecord }
    let s10 := { s9 with finalFeeEvents :=
      s9.finalFeeEvents ++ (f "FinalFeesPaid" fb h).map toFinalFeeRecord }
    let s11 := { s10 with liquidationWithdrawnEvents :=
      s10.liquidationWithdrawnEvents ++ (f "LiquidationWithdrawn" fb h).map toLiquidationWithdrawnRecord }
    let s12 := { s11 with settleExpiredPositionEvents :=
      s11.settleExpiredPositionEvents ++ (f "SettleExpiredPosition" fb h).map toSettleExpiredPositionRecord }
    UpdateResult.ok { s12 with firstBlockToSearch := h + 1, lastUpdateTimestamp := t }
      (reqs5 ++
       [("Deposit", fb, h), ("Withdrawal", fb, h), ("Redeem", fb, h),
        ("RegularFeesPaid", fb, h), ("FinalFeesPaid", fb, h),
        ("LiquidationWithdrawn", fb, h), ("SettleExpiredPosition", fb, h)])

/-! ## Allowance maintenance (src/disputer/index.js lines 56-69, liquidator lines 155-180) -/

/-- Modelled from the spec: `MAX_UINT_VAL` is imported from
`src/common/Constants`, which is not under `src/`; the spec describes it as
the "maximum representable unsigned value", i.e. the 256-bit unsigned
maximum. -/
def MAX_UINT_VAL : Nat := 2 ^ 256 - 1

/-- Result of one allowance-maintenance block: the allowance after the block
and the number of approval transactions it submitted. -/
structure AllowanceOutcome where
  newAllowance : Nat
  txSubmitted : Nat
deriving DecidableEq, Repr

/-- The allowance-maintenance block of `run` (disputer lines 59-69): reads the
current allowance and, when it is below `MAX_UINT_VAL / 2` (BN integer
division), submits one `approve` for `MAX_UINT_VAL`; otherwise does nothing.
The effect of `approve(spender, MAX_UINT_VAL)` on the stored allowance is the
ERC-20 semantics the spec states: the allowance becomes `MAX_UINT_VAL`. -/
def ensureAllowance (currentAllowance : Nat) : AllowanceOutcome :=
  if currentAllowance < MAX_UINT_VAL / 2 then
    { newAllowance := MAX_UINT_VAL, txSubmitted := 1 }
  else
    { newAllowance := currentAllowance, txSubmitted := 0 }

/-! ## The `run` polling loop (src/disputer/index.js, liquidator's index.js)

Both entry points have the same shape: one `try` block containing the whole
body — setup (accounts, contract, price feed with a `throw` on a null feed,
decision-engine construction, allowance maintenance) followed by
`while (true) { act; claimRewards; delay; if (!shouldPoll) break; }` — and a
single `catch` that logs the error and returns without rethrowing. -/

/-- Outcome of one external call made inside the loop body
(`disputer.queryAndDispute` / `queryAndWithdrawRewards`, respectively
`liquidator.queryAndLiquidate` / `queryAndWithdrawRewards`): it either
resolves or rejects.  Any error raised inside it — price-feed refresh, cache
synchronize, or the decision logic — surfaces as `raise`. -/
inductive StepOutcome where
  | ok : StepOutcome
  | raise : StepOutcome
deriving DecidableEq, Repr

/-- The behaviour of the two external calls of one loop iteration. -/
structure IterBehavior where
  act : StepOutcome
  claimRewards : StepOutcome
deriving DecidableEq, Repr

/-- How `run` ended, as far as the modelled iteration behaviours reach. -/
inductive RunOutcome where
  | returnedNormally : RunOutcome
  | stillLooping : RunOutcome
deriving DecidableEq, Repr

/-- Observable summary of the `while (true)` loop of `run`: how many
iterations were entered, how many times the `delay(pollingDelay)` sleep ran,
whether the `catch` block logged an error, and how the call ended. -/
structure LoopState where
  iterationsStarted : Nat
  sleeps : Nat
  errorLogged : Bool
  outcome : RunOutcome
deriving DecidableEq, Repr

/-- The `while (true)` loop of `run` (disputer lines 71-88).  `behaviors`
supplies the outcomes of the external calls of successive iterations; an
exhausted list in continuous mode means the loop is still running beyond the
modelled horizon.  An iteration whose `act` or `claimRewards` call raises is
not caught inside the loop: control jumps to the `catch` outside the loop,
which logs the error, and `run` returns — the sleep of that iteration never
runs and no further iteration starts.  An iteration that completes sleeps
once; with `shouldPoll = false` the loop then breaks, otherwise it
continues. -/
def runLoop (shouldPoll : Bool) : List IterBehavior → LoopState
  | [] => { iterationsStarted := 0, sleeps := 0, errorLogged := false,
            outcome := if shouldPoll then RunOutcome.stillLooping else RunOutcome.returnedNormally }
  | b :: rest =>
    if b.act = StepOutcome.raise ∨ b.claimRewards = StepOutcome.raise then
      { iterationsStarted := 1, sleeps := 0, errorLogged := true,
        outcome := RunOutcome.returnedNormally }
    else if shouldPoll then
      let r := runLoop shouldPoll rest
      { iterationsStarted := r.iterationsStarted + 1, sleeps := r.sleeps + 1,
        errorLogged := r.errorLogged, outcome := r.outcome }
    else
      { iterationsStarted := 1, sleeps := 1, errorLogged := false,
        outcome := RunOutcome.returnedNormally }

/-- The behaviour of the setup phase of `run` (disputer lines 40-69): whether
`createPriceFeed` produced a price feed (a null feed makes `run` execute
`throw new Error("Price feed config is invalid")`), and whether constructing
the decision engine succeeded. -/
structure SetupBehavior where
  priceFeedOk : Bool
  engineOk : Bool
deriving DecidableEq, Repr

/-- Whether the setup phase raises. -/
def setupRaises (b : SetupBehavior) : Bool := !b.priceFeedOk || !b.engineOk

/-- Observable summary of one `run` call. -/
structure RunResult where
  loop : LoopState
  raisedToCaller : Bool
deriving DecidableEq, Repr

/-- `run` (disputer lines 29-89): the whole body sits inside one `try`.  When
setup raises, control reaches the `catch` before the loop ever starts: the
error is logged and `run` returns normally.  When setup succeeds the loop
runs.  In both cases nothing is rethrown, so `run` never raises to its
caller. -/
def run (setup : SetupBehavior) (shouldPoll : Bool) (behaviors : List IterBehavior) : RunResult :=
  if setupRaises setup then
    { loop := { iterationsStarted := 0, sleeps := 0, errorLogged := true,
                outcome := RunOutcome.returnedNormally }
      raisedToCaller := false }
  else
    { loop := runLoop shouldPoll behaviors, raisedToCaller := false }

/-! ## Reference-level model of the event arrays

The claims about snapshots concern JavaScript object identity: each accessor
returns `this.<kind>Events` itself — the live array — and `update` mutates
those arrays in place with `push`, while `clearState` rebinds the fields to
fresh arrays.  This model makes array identity explicit: a store maps array
identifiers to contents, the client fields hold identifiers, `update` appends
through the store (`push`), and `clearState` allocates fresh identifiers
(`this.x = []`). -/

/-- The array store: contents of each allocated array, by identifier. -/
abbrev ArrayStore := List (Nat × List EventRecord)

/-- Reading an array from the store by its identifier. -/
def derefArray (st : ArrayStore) (id : Nat) : List EventRecord :=
  ((st.find? (fun p => p.1 == id)).map Prod.snd).getD []

/-- `push` semantics: appending records to the array bound to `id`, in
place. -/
def pushAll (st : ArrayStore) (id : Nat) (xs : List EventRecord) : ArrayStore :=
  st.map (fun p => if p.1 == id then (p.1, p.2 ++ xs) else p)

/-- The client state with array identity explicit: twelve array references, a
store, an allocation counter, and the cursor and timestamp. -/
structure RefClientState where
  store : ArrayStore
  nextId : Nat
  liquidationEventsRef : Nat
  disputeEventsRef : Nat
  disputeSettlementEventsRef : Nat
  newSponsorEventsRef : Nat
  depositEventsRef : Nat
  createEventsRef : Nat
  withdrawEventsRef : Nat
  redeemEventsRef : Nat
  regularFeeEventsRef : Nat
  finalFeeEventsRef : Nat
  liquidationWithdrawnEventsRef : Nat
  settleExpiredPositionEventsRef : Nat
  firstBlockToSearch : Nat
  lastUpdateTimestamp : Nat
deriving DecidableEq, Repr

/-- The constructor at the reference level: twelve fresh empty arrays. -/
def initialRefClientState (latestBlockNumber : Nat) : RefClientState :=
  { store := [(0, []), (1, []), (2, []), (3, []), (4, []), (5, []),
              (6, []), (7, []), (8, []), (9, []), (10, []), (11, [])]
    nextId := 12
    liquidationEventsRef := 0
    disputeEventsRef := 1
    disputeSettlementEventsRef := 2
    newSponsorEventsRef := 3
    depositEventsRef := 4
    createEventsRef := 5
    withdrawEventsRef := 6
    redeemEventsRef := 7
    regularFeeEventsRef := 8
    finalFeeEventsRef := 9
    liquidationWithdrawnEventsRef := 10
    settleExpiredPositionEventsRef := 11
    firstBlockToSearch := latestBlockNumber
    lastUpdateTimestamp := 0 }

/-- `clearState` at the reference level (lines 41-54): each `this.x = []`
binds the field to a freshly allocated empty array; previously returned
references keep pointing at the detached old arrays. -/
def clearStateRef (s : RefClientState) : RefClientState :=
  { s with
    store := s.store ++
      [(s.nextId, []), (s.nextId + 1, []), (s.nextId + 2, []), (s.nextId + 3, []),
       (s.nextId + 4, []), (s.nextId + 5, []), (s.nextId + 6, []), (s.nextId + 7, []),
       (s.nextId + 8, []), (s.nextId + 9, []), (s.nextId + 10, []), (s.nextId + 11, [])]
    nextId := s.nextId + 12
    liquidationEventsRef := s.nextId
    disputeEventsRef := s.nextId + 1
    disputeSettlementEventsRef := s.nextId + 2
    newSponsorEventsRef := s.nextId + 3
    depositEventsRef := s.nextId + 4
    createEventsRef := s.nextId + 5
    withdrawEventsRef := s.nextId + 6
    redeemEventsRef := s.nextId + 7
    regularFeeEventsRef := s.nextId + 8
    finalFeeEventsRef := s.nextId + 9
    liquidationWithdrawnEventsRef := s.nextId + 10
    settleExpiredPositionEventsRef := s.nextId + 11 }

/-- `getAllLiquidationEvents` at the reference level: returns the live array
reference, not a copy. -/
def getAllLiquidationEventsRef (s : RefClientState) : Nat := s.liquidationEventsRef

/-- `getAllNewSponsorEvents` at the reference level: returns the live array
reference, not a copy. -/
def getAllNewSponsorEventsRef (s : RefClientState) : Nat := s.newSponsorEventsRef

/-- Result of `update` at the reference level. -/
inductive RefUpdateResult where
  | ok : RefClientState → RefUpdateResult
  | consistencyError : RefClientState → RefUpdateResult
deriving DecidableEq, Repr

/-- The client state after a reference-level `update` call. -/
def RefUpdateResult.state : RefUpdateResult → RefClientState
  | .ok s => s
  | .consistencyError s => s

/-- `update` at the reference level: identical fetch-and-append algorithm to
`update`, but every append is a `push` into the existing array through the
store, so previously returned references observe the growth.  The NewSponsor
loop reads the (already grown) create array through the store and pushes the
correlated records one by one; a failed correlation throws with the pushes so
far retained. -/
def updateRef (s : RefClientState) (f : Transport) (h : Nat) (t : Nat) : RefUpdateResult :=
  let fb := s.firstBlockToSearch
  let st1 := pushAll s.store s.liquidationEventsRef ((f "LiquidationCreated" fb h).map toLiquidationRecord)
  let st2 := pushAll st1 s.disputeEventsRef ((f "LiquidationDisputed" fb h).map toDisputeRecord)
  let st3 := pushAll st2 s.disputeSettlementEventsRef ((f "DisputeSettled" fb h).map toDisputeSettlementRecord)
  let st4 := pushAll st3 s.createEventsRef ((f "PositionCreated" fb h).map toCreateRecord)
  match processNewSponsors (derefArray st4 s.createEventsRef)
      (derefArray st4 s.newSponsorEventsRef) (f "NewSponsor" fb h) with
  | Except.error partial_ns =>
    RefUpdateResult.consistencyError
      { s with store :=
          st4.map (fun p => if p.1 == s.newSponsorEventsRef then (p.1, partial_ns) else p) }
  | Except.ok ns =>
    let st5 := st4.map (fun p => if p.1 == s.newSponsorEventsRef then (p.1, ns) else p)
    let st6 := pushAll st5 s.depositEventsRef ((f "Deposit" fb h).map toDepositRecord)
    let st7 := pushAll st6 s.withdrawEventsRef ((f "Withdrawal" fb h).map toWithdrawRecord)
    let st8 := pushAll st7 s.redeemEventsRef ((f "Redeem" fb h).map toRedeemRecord)
    let st9 := pushAll st8 s.regularFeeEventsRef ((f "RegularFeesPaid" fb h).map toRegularFeeRecord)
    let st10 := pushAll st9 s.finalFeeEventsRef ((f "FinalFeesPaid" fb h).map toFinalFeeRecord)
    let st11 := pushAll st10 s.liquidationWithdrawnEventsRef ((f "LiquidationWithdrawn" fb h).map toLiquidationWithdrawnRecord)
    let st12 := pushAll st11 s.settleExpiredPositionEventsRef ((f "SettleExpiredPosition" fb h).map toSettleExpiredPositionRecord)
    RefUpdateResult.ok { s with store := st12, firstBlockToSearch := h + 1, lastUpdateTimestamp := t }

/-! ## Synchronize sequences, ordering invariant, and fixtures -/

/-- The twelve event names fetched by `update`, in source order. -/
def allEventNames : List String :=
  ["LiquidationCreated", "LiquidationDisputed", "DisputeSettled", "PositionCreated",
   "NewSponsor", "Deposit", "Withdrawal", "Redeem", "RegularFeesPaid", "FinalFeesPaid",
   "LiquidationWithdrawn", "SettleExpiredPosition"]

/-- The inputs of one `update` call: the transport, the chain height returned
by `getBlockNumber`, and the contract clock value returned by
`getCurrentTime`. -/
structure SyncStep where
  transport : Transport
  height : Nat
  time : Nat

/-- Running a sequence of `update` calls from a state, recording for each call
the state it started from, its inputs, and its result; each call starts from
the state the previous call left behind (successful or not). -/
def updateTrace (s : ClientState) : List SyncStep → List (ClientState × SyncStep × UpdateResult)
  | [] => []
  | st :: rest =>
    let r := update s st.transport st.height st.time
    (s, st, r) :: updateTrace r.state rest

/-- A sequence of event records is non-decreasing by block number. -/
def blockSorted (l : List EventRecord) : Prop :=
  List.Chain' (· ≤ ·) (l.map (fun r => r.blockNumber))

/-- The twelve per-kind sequences of a cache state, in source order. -/
def allSequences (s : ClientState) : List (List EventRecord) :=
  [s.liquidationEvents, s.disputeEvents, s.disputeSettlementEvents, s.newSponsorEvents,
   s.depositEvents, s.createEvents, s.withdrawEvents, s.redeemEvents, s.regularFeeEvents,
   s.finalFeeEvents, s.liquidationWithdrawnEvents, s.settleExpiredPositionEvents]

/-- Every per-kind sequence of the cache is non-decreasing by block number. -/
def cacheSorted (s : ClientState) : Prop :=
  ∀ l ∈ allSequences s, blockSorted l

/-- Every stored event sits strictly below the cursor (auxiliary invariant). -/
def cacheBounded (s : ClientState) : Prop :=
  ∀ l ∈ allSequences s, ∀ e ∈ l, e.blockNumber < s.firstBlockToSearch

/-- A structurally recursive decision procedure for chains of `≤` on `Nat`
lists (Mathlib's instance is tactic-defined and does not reduce in the
kernel). -/
def decNDChain : (l : List Nat) → Decidable (List.Chain' (· ≤ ·) l)
  | [] => isTrue List.chain'_nil
  | [a] => isTrue (List.chain'_singleton a)
  | a :: b :: rest =>
    match Nat.decLe a b, decNDChain (b :: rest) with
    | isTrue h1, isTrue h2 => isTrue (List.chain'_cons.mpr ⟨h1, h2⟩)
    | isFalse h1, _ => isFalse (fun hc => h1 (List.chain'_cons.mp hc).1)
    | _, isFalse h2 => isFalse (fun hc => h2 (List.chain'_cons.mp hc).2)

instance (l : List EventRecord) : Decidable (blockSorted l) :=
  decNDChain (l.map (fun r : EventRecord => r.blockNumber))

instance (s : ClientState) : Decidable (cacheSorted s) :=
  inferInstanceAs (Decidable (∀ l ∈ allSequences s, blockSorted l))

instance (s : ClientState) : Decidable (cacheBounded s) :=
  inferInstanceAs (Decidable (∀ l ∈ allSequences s, ∀ e ∈ l, e.blockNumber < s.firstBlockToSearch))

/-- A well-behaved fetch: for each event name, the transport answers the
inclusive range request with events in ascending block order whose block
numbers lie inside the requested range — the behaviour the specification
ascribes to the chain transport. -/
def goodFetch (f : Transport) (fb h : Nat) : Prop :=
  ∀ kind, List.Chain' (· ≤ ·) ((f kind fb h).map (fun e => e.blockNumber)) ∧
    ∀ e ∈ f kind fb h, fb ≤ e.blockNumber ∧ e.blockNumber ≤ h

/-- Cache states reachable from a given state by successful, well-behaved
synchronize calls (chain height never below cursor − 1, i.e. monotonically
increasing heights) and by `clearState` calls. -/
inductive ReachesOk : ClientState → ClientState → Prop where
  | refl (s : ClientState) : ReachesOk s s
  | sync {s₀ s : ClientState} (f : Transport) (h t : Nat) (s' : ClientState)
      (reqs : List EventRequest) :
      ReachesOk s₀ s → goodFetch f s.firstBlockToSearch h →
      s.firstBlockToSearch ≤ h + 1 →
      update s f h t = UpdateResult.ok s' reqs → ReachesOk s₀ s'
  | reset {s₀ s : ClientState} : ReachesOk s₀ s → ReachesOk s₀ (clearState s)

/-! ### Concrete fixtures used by witnesses and counterexamples -/

/-- A transport that answers every request with no events. -/
def emptyTransport : Transport := fun _ _ _ => []

/-- A raw `LiquidationCreated` event at block 5. -/
def liqRaw5 : RawEvent :=
  { transactionHash := "0xliq5", blockNumber := 5,
    returnValues := [("sponsor", JsValue.str "0xaaa"), ("liquidator", JsValue.str "0xbbb"),
                     ("liquidationId", JsValue.str "0"),
                     ("tokensOutstanding", JsValue.str "10"),
                     ("lockedCollateral", JsValue.str "20"),
                     ("liquidatedCollateral", JsValue.str "20")] }

/-- A raw `LiquidationCreated` event at block 3. -/
def liqRaw3 : RawEvent :=
  { transactionHash := "0xliq3", blockNumber := 3,
    returnValues := [("sponsor", JsValue.str "0xaaa"), ("liquidator", JsValue.str "0xbbb"),
                     ("liquidationId", JsValue.str "1"),
                     ("tokensOutstanding", JsValue.str "5"),
                     ("lockedCollateral", JsValue.str "9"),
                     ("liquidatedCollateral", JsValue.str "9")] }

/-- A raw `NewSponsor` event at block 7, for which no `PositionCreated` event
exists. -/
def nsRaw7 : RawEvent :=
  { transactionHash := "0xns7", blockNumber := 7,
    returnValues := [("sponsor", JsValue.str "0xccc")] }

/-- A raw `NewSponsor` event at block 5. -/
def nsRaw5 : RawEvent :=
  { transactionHash := "0xns5", blockNumber := 5,
    returnValues := [("sponsor", JsValue.str "0xddd")] }

/-- A raw `PositionCreated` event at block 5. -/
def pcRaw5 : RawEvent :=
  { transactionHash := "0xpc5", blockNumber := 5,
    returnValues := [("sponsor", JsValue.str "0xddd"), ("collateralAmount", JsValue.str "100"),
                     ("tokenAmount", JsValue.str "10")] }

/-- A transport producing one liquidation at block 5 and a `NewSponsor` at
block 7 with no `PositionCreated` anywhere: its `update` fails during the
correlation loop. -/
def failingTransport : Transport := fun kind _ _ =>
  if kind == "LiquidationCreated" then [liqRaw5]
  else if kind == "NewSponsor" then [nsRaw7] else []

/-- A transport producing only the same liquidation at block 5. -/
def liqOnlyTransport : Transport := fun kind _ _ =>
  if kind == "LiquidationCreated" then [liqRaw5] else []

/-- A transport producing two liquidations (blocks 3 and 5) and the unmatched
`NewSponsor` at block 7: its `update` fails after appending the
liquidations. -/
def failingTransportTwoLiq : Transport := fun kind _ _ =>
  if kind == "LiquidationCreated" then [liqRaw3, liqRaw5]
  else if kind == "NewSponsor" then [nsRaw7] else []

/-- A transport producing only the two liquidations at blocks 3 and 5. -/
def twoLiqTransport : Transport := fun kind _ _ =>
  if kind == "LiquidationCreated" then [liqRaw3, liqRaw5] else []

/-- A transport whose pass fetches a `NewSponsor` at block 5 and no
`PositionCreated` at all. -/
def nsOnlyTransport : Transport := fun kind _ _ =>
  if kind == "NewSponsor" then [nsRaw5] else []

/-- A cache state holding one `PositionCreated` record at block 5 cached from
an earlier pass (as left by a successful pass whose fetch returned
`pcRaw5`). -/
def cachedCreateState : ClientState :=
  { initialClientState 0 with createEvents := [toCreateRecord pcRaw5], firstBlockToSearch := 0 }

/-- An iteration on which both external calls resolve. -/
def okIter : IterBehavior := { act := StepOutcome.ok, claimRewards := StepOutcome.ok }

/-- An iteration whose act call (`queryAndDispute` / `queryAndLiquidate`)
rejects. -/
def raiseActIter : IterBehavior := { act := StepOutcome.raise, claimRewards := StepOutcome.ok }

/-- Two successful synchronize steps against an empty chain segment, with
heights 100 then 120. -/
def syncSteps2 : List SyncStep :=
  [{ transport := emptyTransport, height := 100, time := 7 },
   { transport := emptyTransport, height := 120, time := 9 }]

/-- One store extends another by in-place appends: every array identifier
reads back its old contents followed by some (possibly empty) tail. -/
def growsTo (a b : ArrayStore) : Prop :=
  ∀ i : Nat, ∃ tail, derefArray b i = derefArray a i ++ tail

/-- A structurally recursive decision procedure for `List.Chain (· ≤ ·)` on
`Nat` (the library instance is tactic-defined and does not reduce in the
kernel). -/
def decNDChainFrom : (a : Nat) → (l : List Nat) → Decidable (List.Chain (· ≤ ·) a l)
  | _, [] => isTrue List.Chain.nil
  | a, b :: rest =>
    match Nat.decLe a b, decNDChainFrom b rest with
    | isTrue h1, isTrue h2 => isTrue (List.Chain.cons h1 h2)
    | isFalse h1, _ => isFalse (fun hc => h1 (List.chain_cons.mp hc).1)
    | _, isFalse h2 => isFalse (fun hc => h2 (List.chain_cons.mp hc).2)

instance (a : Nat) (l : List Nat) : Decidable (List.Chain (· ≤ ·) a l) :=
  decNDChainFrom a l

/-- Allocation discipline of the reference-level client: every array
identifier held by the twelve fields lies below the allocation counter.  The
constructor establishes it (identifiers 0-11, counter 12) and both mutators
preserve it, so it holds in every state the model can produce, and every
array reference an accessor has ever returned is an identifier below the
current counter. -/
abbrev refsBelowNext (s : RefClientState) : Prop :=
  s.liquidationEventsRef < s.nextId ∧ s.disputeEventsRef < s.nextId ∧
  s.disputeSettlementEventsRef < s.nextId ∧ s.newSponsorEventsRef < s.nextId ∧
  s.depositEventsRef < s.nextId ∧ s.createEventsRef < s.nextId ∧
  s.withdrawEventsRef < s.nextId ∧ s.redeemEventsRef < s.nextId ∧
  s.regularFeeEventsRef < s.nextId ∧ s.finalFeeEventsRef < s.nextId ∧
  s.liquidationWithdrawnEventsRef < s.nextId ∧ s.settleExpiredPositionEventsRef < s.nextId

/-- Running a sequence of reference-level `update` calls, each starting from
the state the previous one left behind (successful or not). -/
def updateRefChain (s : RefClientState) : List SyncStep → RefClientState
  | [] => s
  | st :: rest => updateRefChain ((updateRef s st.transport st.height st.time).state) rest

/-! ## Helper lemmas -/

theorem processNewSponsors_ok_shape (l : List RawEvent) :
    ∀ (pool acc ns : List EventRecord),
      processNewSponsors pool acc l = Except.ok ns →
      ∃ new, ns = acc ++ new ∧
        new.map (fun r => r.blockNumber) = l.map (fun e => e.blockNumber) := by
  induction l with
  | nil =>
    intro pool acc ns hok
    refine ⟨[], ?_, rfl⟩
    simp [processNewSponsors] at hok
    simp [hok]
  | cons e rest ih =>
    intro pool acc ns hok
    unfold processNewSponsors at hok
    cases hf : pool.filter (fun c => c.blockNumber == e.blockNumber) with
    | nil => rw [hf] at hok; exact absurd hok (by simp)
    | cons c cs =>
      rw [hf] at hok
      obtain ⟨new, hns, hblocks⟩ := ih pool (acc ++ [toNewSponsorRecord e c]) ns hok
      refine ⟨toNewSponsorRecord e c :: new, ?_, ?_⟩
      · simp [hns]
      · simp [hblocks, toNewSponsorRecord]

theorem processNewSponsors_error_shape (l : List RawEvent) :
    ∀ (pool acc res : List EventRecord),
      processNewSponsors pool acc l = Except.error res →
      ∃ new, res = acc ++ new ∧
        ∀ r ∈ new, ∃ c ∈ pool, c.blockNumber = r.blockNumber := by
  induction l with
  | nil =>
    intro pool acc res herr
    exact absurd herr (by simp [processNewSponsors])
  | cons e rest ih =>
    intro pool acc res herr
    unfold processNewSponsors at herr
    cases hf : pool.filter (fun c => c.blockNumber == e.blockNumber) with
    | nil =>
      rw [hf] at herr
      refine ⟨[], ?_, by simp⟩
      simpa using herr.symm
    | cons c cs =>
      rw [hf] at herr
      obtain ⟨new, hres, hmatch⟩ := ih pool (acc ++ [toNewSponsorRecord e c]) res herr
      refine ⟨toNewSponsorRecord e c :: new, by simp [hres], ?_⟩
      intro r hr
      rcases List.mem_cons.mp hr with hr | hr
      · subst hr
        have hc : c ∈ pool.filter (fun c => c.blockNumber == e.blockNumber) := by
          rw [hf]; exact List.mem_cons_self c cs
        have := List.of_mem_filter hc
        exact ⟨c, List.mem_of_mem_filter hc, by simpa [toNewSponsorRecord] using this⟩
      · exact hmatch r hr

theorem processNewSponsors_ok_iff (l : List RawEvent) :
    ∀ (pool acc : List EventRecord),
      (∃ ns, processNewSponsors pool acc l = Except.ok ns) ↔
        ∀ e ∈ l, ∃ c ∈ pool, c.blockNumber = e.blockNumber := by
  induction l with
  | nil => intro pool acc; simp [processNewSponsors]
  | cons e rest ih =>
    intro pool acc
    constructor
    · rintro ⟨ns, hok⟩
      unfold processNewSponsors at hok
      cases hf : pool.filter (fun c => c.blockNumber == e.blockNumber) with
      | nil => rw [hf] at hok; exact absurd hok (by simp)
      | cons c cs =>
        rw [hf] at hok
        intro e' he'
        rcases List.mem_cons.mp he' with he' | he'
        · subst he'
          have hc : c ∈ pool.filter (fun c => c.blockNumber == e'.blockNumber) := by
            rw [hf]; exact List.mem_cons_self c cs
          exact ⟨c, List.mem_of_mem_filter hc, by simpa using List.of_mem_filter hc⟩
        · exact (ih pool (acc ++ [toNewSponsorRecord e c])).mp ⟨ns, hok⟩ e' he'
    · intro hall
      obtain ⟨c, hcmem, hcb⟩ := hall e (List.mem_cons_self e rest)
      have hfilter : c ∈ pool.filter (fun c => c.blockNumber == e.blockNumber) :=
        List.mem_filter.mpr ⟨hcmem, by simpa using hcb⟩
      unfold processNewSponsors
      cases hf : pool.filter (fun c => c.blockNumber == e.blockNumber) with
      | nil => rw [hf] at hfilter; exact absurd hfilter (by simp)
      | cons c0 cs =>
        exact (ih pool (acc ++ [toNewSponsorRecord e c0])).mpr
          (fun e' he' => hall e' (List.mem_cons_of_mem e he'))

theorem update_ok_shape (s : ClientState) (f : Transport) (h t : Nat) (s' : ClientState)
    (reqs : List EventRequest) (hok : update s f h t = UpdateResult.ok s' reqs) :
    s'.liquidationEvents = s.liquidationEvents ++ (f "LiquidationCreated" s.firstBlockToSearch h).map toLiquidationRecord ∧
    s'.disputeEvents = s.disputeEvents ++ (f "LiquidationDisputed" s.firstBlockToSearch h).map toDisputeRecord ∧
    s'.disputeSettlementEvents = s.disputeSettlementEvents ++ (f "DisputeSettled" s.firstBlockToSearch h).map toDisputeSettlementRecord ∧
    s'.createEvents = s.createEvents ++ (f "PositionCreated" s.firstBlockToSearch h).map toCreateRecord ∧
    (∃ ns, processNewSponsors (s.createEvents ++ (f "PositionCreated" s.firstBlockToSearch h).map toCreateRecord)
        s.newSponsorEvents (f "NewSponsor" s.firstBlockToSearch h) = Except.ok ns ∧
      s'.newSponsorEvents = ns) ∧
    s'.depositEvents = s.depositEvents ++ (f "Deposit" s.firstBlockToSearch h).map toDepositRecord ∧
    s'.withdrawEvents = s.withdrawEvents ++ (f "Withdrawal" s.firstBlockToSearch h).map toWithdrawRecord ∧
    s'.redeemEvents = s.redeemEvents ++ (f "Redeem" s.firstBlockToSearch h).map toRedeemRecord ∧
    s'.regularFeeEvents = s.regularFeeEvents ++ (f "RegularFeesPaid" s.firstBlockToSearch h).map toRegularFeeRecord ∧
    s'.finalFeeEvents = s.finalFeeEvents ++ (f "FinalFeesPaid" s.firstBlockToSearch h).map toFinalFeeRecord ∧
    s'.liquidationWithdrawnEvents = s.liquidationWithdrawnEvents ++ (f "LiquidationWithdrawn" s.firstBlockToSearch h).map toLiquidationWithdrawnRecord ∧
    s'.settleExpiredPositionEvents = s.settleExpiredPositionEvents ++ (f "SettleExpiredPosition" s.firstBlockToSearch h).map toSettleExpiredPositionRecord ∧
    s'.firstBlockToSearch = h + 1 ∧
    s'.lastUpdateTimestamp = t ∧
    reqs = allEventNames.map (fun k => (k, s.firstBlockToSearch, h)) := by
  cases hNS : processNewSponsors
      (s.createEvents ++ (f "PositionCreated" s.firstBlockToSearch h).map toCreateRecord)
      s.newSponsorEvents (f "NewSponsor" s.firstBlockToSearch h) with
  | error res =>
    simp only [update, hNS] at hok
    exact UpdateResult.noConfusion hok
  | ok ns =>
    simp only [update, hNS, UpdateResult.ok.injEq] at hok
    obtain ⟨hs', hreqs⟩ := hok
    subst hs'
    subst hreqs
    refine ⟨rfl, rfl, rfl, rfl, ⟨ns, rfl, rfl⟩, rfl, rfl, rfl, rfl, rfl, rfl, rfl, rfl, rfl, ?_⟩
    simp [allEventNames]

theorem update_error_shape (s : ClientState) (f : Transport) (h t : Nat) (s' : ClientState)
    (reqs : List EventRequest) (herr : update s f h t = UpdateResult.consistencyError s' reqs) :
    s'.liquidationEvents = s.liquidationEvents ++ (f "LiquidationCreated" s.firstBlockToSearch h).map toLiquidationRecord ∧
    s'.disputeEvents = s.disputeEvents ++ (f "LiquidationDisputed" s.firstBlockToSearch h).map toDisputeRecord ∧
    s'.disputeSettlementEvents = s.disputeSettlementEvents ++ (f "DisputeSettled" s.firstBlockToSearch h).map toDisputeSettlementRecord ∧
    s'.createEvents = s.createEvents ++ (f "PositionCreated" s.firstBlockToSearch h).map toCreateRecord ∧
    (∃ res, processNewSponsors (s.createEvents ++ (f "PositionCreated" s.firstBlockToSearch h).map toCreateRecord)
        s.newSponsorEvents (f "NewSponsor" s.firstBlockToSearch h) = Except.error res ∧
      s'.newSponsorEvents = res) ∧
    s'.depositEvents = s.depositEvents ∧
    s'.withdrawEvents = s.withdrawEvents ∧
    s'.redeemEvents = s.redeemEvents ∧
    s'.regularFeeEvents = s.regularFeeEvents ∧
    s'.finalFeeEvents = s.finalFeeEvents ∧
    s'.liquidationWithdrawnEvents = s.liquidationWithdrawnEvents ∧
    s'.settleExpiredPositionEvents = s.settleExpiredPositionEvents ∧
    s'.firstBlockToSearch = s.firstBlockToSearch ∧
    s'.lastUpdateTimestamp = s.lastUpdateTimestamp ∧
    reqs = (allEventNames.take 5).map (fun k => (k, s.firstBlockToSearch, h)) := by
  cases hNS : processNewSponsors
      (s.createEvents ++ (f "PositionCreated" s.firstBlockToSearch h).map toCreateRecord)
      s.newSponsorEvents (f "NewSponsor" s.firstBlockToSearch h) with
  | ok ns =>
    simp only [update, hNS] at herr
    exact UpdateResult.noConfusion herr
  | error res =>
    simp only [update, hNS, UpdateResult.consistencyError.injEq] at herr
    obtain ⟨hs', hreqs⟩ := herr
    subst hs'
    subst hreqs
    refine ⟨rfl, rfl, rfl, rfl, ⟨res, rfl, rfl⟩, rfl, rfl, rfl, rfl, rfl, rfl, rfl, rfl, rfl, ?_⟩
    simp [allEventNames]

/-! ## Claim C6 — reset semantics -/

/-- Claim C6 (confirmed): after `clearState` all twelve accessors return empty
sequences, while the cursor and the last-update timestamp keep their pre-reset
values; consequently every fetch request issued by the next `update` call has
`fromBlock` equal to the pre-reset cursor. -/
theorem clearState_keeps_cursor (s : ClientState) (f : Transport) (h t : Nat) :
    getAllLiquidationEvents (clearState s) = [] ∧
    getAllDisputeEvents (clearState s) = [] ∧
    getAllDisputeSettlementEvents (clearState s) = [] ∧
    getAllNewSponsorEvents (clearState s) = [] ∧
    getAllDepositEvents (clearState s) = [] ∧
    getAllCreateEvents (clearState s) = [] ∧
    getAllWithdrawEvents (clearState s) = [] ∧
    getAllRedeemEvents (clearState s) = [] ∧
    getAllRegularFeeEvents (clearState s) = [] ∧
    getAllFinalFeeEvents (clearState s) = [] ∧
    getAllLiquidationWithdrawnEvents (clearState s) = [] ∧
    getAllSettleExpiredPositionEvents (clearState s) = [] ∧
    (clearState s).firstBlockToSearch = s.firstBlockToSearch ∧
    getLastUpdateTime (clearState s) = getLastUpdateTime s ∧
    ∀ r ∈ (update (clearState s) f h t).requests, r.2.1 = s.firstBlockToSearch := by
  refine ⟨rfl, rfl, rfl, rfl, rfl, rfl, rfl, rfl, rfl, rfl, rfl, rfl, rfl, rfl, ?_⟩
  intro r hr
  cases hu : update (clearState s) f h t with
  | ok s' reqs =>
    have hshape := update_ok_shape (clearState s) f h t s' reqs hu
    rw [hu] at hr
    simp only [UpdateResult.requests] at hr
    rw [hshape.2.2.2.2.2.2.2.2.2.2.2.2.2.2] at hr
    obtain ⟨k, -, hk⟩ := List.mem_map.mp hr
    rw [← hk]
    rfl
  | consistencyError s' reqs =>
    have hshape := update_error_shape (clearState s) f h t s' reqs hu
    rw [hu] at hr
    simp only [UpdateResult.requests] at hr
    rw [hshape.2.2.2.2.2.2.2.2.2.2.2.2.2.2] at hr
    obtain ⟨k, -, hk⟩ := List.mem_map.mp hr
    rw [← hk]
    rfl

/-! ## Claim C7 — allowance maintenance idempotence -/

/-- Claim C7 (confirmed): `ensureAllowance` reads the current allowance; below
half of the maximum representable unsigned value it submits exactly one
approval setting the allowance to the maximum, otherwise it submits none, so
two consecutive runs whose first one tops up submit exactly one transaction in
total. -/
theorem ensureAllowance_idempotent (a : Nat) :
    (ensureAllowance a).txSubmitted = (if a < MAX_UINT_VAL / 2 then 1 else 0) ∧
    (ensureAllowance a).newAllowance = (if a < MAX_UINT_VAL / 2 then MAX_UINT_VAL else a) ∧
    (a < MAX_UINT_VAL / 2 →
      (ensureAllowance a).txSubmitted +
        (ensureAllowance (ensureAllowance a).newAllowance).txSubmitted = 1) := by
  by_cases hlt : a < MAX_UINT_VAL / 2
  · have hmax : ¬ MAX_UINT_VAL < MAX_UINT_VAL / 2 := not_lt.mpr (Nat.div_le_self _ _)
    simp [ensureAllowance, hlt, hmax]
  · simp [ensureAllowance, hlt]

/-- Witness for C7 at allowance 0: the first run submits the single approval
and the second run submits none. -/
theorem ensureAllowance_idempotent_witness :
    0 < MAX_UINT_VAL / 2 ∧
    (ensureAllowance 0).txSubmitted +
      (ensureAllowance (ensureAllowance 0).newAllowance).txSubmitted = 1 :=
  ⟨by decide, (ensureAllowance_idempotent 0).2.2 (by decide)⟩

/-! ## Claim C1 — loop error containment -/

/-- Claim C1 counterexample: in continuous mode, when the first iteration's
act call raises, the error is caught by the try/catch outside the while loop:
the loop terminates (run returns normally), the iteration's sleep never runs,
and the supplied second iteration never begins — the claim predicts two
iterations started and a normal sleep in between. -/
theorem loop_error_containment_counterexample :
    runLoop true [raiseActIter, okIter] =
      { iterationsStarted := 1, sleeps := 0, errorLogged := true,
        outcome := RunOutcome.returnedNormally } := by decide

/-- Claim C1 amended: in continuous mode, an error raised by an iteration's
act or claim-rewards call is caught by the single try/catch of `run`
(wrapping setup and loop alike), logged there, and terminates the loop: every
earlier iteration completed with its sleep, the failing iteration does not
sleep, no further iteration starts, and `run` returns normally. -/
theorem runLoop_error_terminates (pre post : List IterBehavior) (b : IterBehavior)
    (hpre : ∀ x ∈ pre, x.act = StepOutcome.ok ∧ x.claimRewards = StepOutcome.ok)
    (hb : b.act = StepOutcome.raise ∨ b.claimRewards = StepOutcome.raise) :
    runLoop true (pre ++ b :: post) =
      { iterationsStarted := pre.length + 1, sleeps := pre.length,
        errorLogged := true, outcome := RunOutcome.returnedNormally } := by
  induction pre with
  | nil =>
    rcases hb with hb | hb <;> simp [runLoop, hb]
  | cons x rest ih =>
    obtain ⟨hx1, hx2⟩ := hpre x (List.mem_cons_self x rest)
    have hrec := ih (fun y hy => hpre y (List.mem_cons_of_mem x hy))
    simp [runLoop, hx1, hx2, hrec]

/-- Witness for the amended C1: one clean iteration, then a raising one. -/
theorem runLoop_error_terminates_witness :
    (∀ x ∈ [okIter], x.act = StepOutcome.ok ∧ x.claimRewards = StepOutcome.ok) ∧
    (raiseActIter.act = StepOutcome.raise ∨ raiseActIter.claimRewards = StepOutcome.raise) ∧
    runLoop true ([okIter] ++ raiseActIter :: []) =
      { iterationsStarted := 2, sleeps := 1, errorLogged := true,
        outcome := RunOutcome.returnedNormally } :=
  ⟨by decide, by decide,
    runLoop_error_terminates [okIter] [] raiseActIter (by decide) (by decide)⟩

/-! ## Claim C8 — setup failures -/

/-- Claim C8 counterexample: a setup failure (price-feed construction yields
no feed) is caught by the same try/catch that wraps the loop: `run` logs it
and returns normally, so the raised error does not propagate to the caller of
`run`. -/
theorem setup_failure_counterexample :
    (run { priceFeedOk := false, engineOk := true } true [okIter]).raisedToCaller = false ∧
    (run { priceFeedOk := false, engineOk := true } true [okIter]).loop.iterationsStarted = 0 := by
  decide

/-- Claim C8 amended: every setup failure of `run` occurs strictly before the
polling loop starts (no iteration runs and no sleep happens), is logged by
the function's own catch block, and `run` returns normally instead of raising
to its caller. -/
theorem run_setup_failure_caught (b : SetupBehavior) (shouldPoll : Bool)
    (behaviors : List IterBehavior) (hfail : setupRaises b = true) :
    run b shouldPoll behaviors =
      { loop := { iterationsStarted := 0, sleeps := 0, errorLogged := true,
                  outcome := RunOutcome.returnedNormally },
        raisedToCaller := false } := by
  simp [run, hfail]

/-- Witness for the amended C8: a failing price feed in single-shot mode. -/
theorem run_setup_failure_caught_witness :
    setupRaises { priceFeedOk := false, engineOk := true } = true ∧
    run { priceFeedOk := false, engineOk := true } false [] =
      { loop := { iterationsStarted := 0, sleeps := 0, errorLogged := true,
                  outcome := RunOutcome.returnedNormally },
        raisedToCaller := false } :=
  ⟨by decide, run_setup_failure_caught _ false [] (by decide)⟩

/-! ## Claim C2 — unmatched NewSponsor fails the pass -/

/-- Claim C2 (confirmed): when a fetched NewSponsor event has no
PositionCreated record with the same block number available to the
correlation, `update` fails (the property access on the empty filter result
throws — the consistency failure) and no record for that event is appended to
the NewSponsor sequence. -/
theorem update_unmatched_newSponsor_fails (s : ClientState) (f : Transport) (h t : Nat)
    (e : RawEvent) (he : e ∈ f "NewSponsor" s.firstBlockToSearch h)
    (hnomatch : ∀ c ∈ s.createEvents ++
        (f "PositionCreated" s.firstBlockToSearch h).map toCreateRecord,
      c.blockNumber ≠ e.blockNumber) :
    (update s f h t).isOk = false ∧
    ∀ r ∈ (update s f h t).state.newSponsorEvents,
      r ∈ s.newSponsorEvents ∨ r.blockNumber ≠ e.blockNumber := by
  cases hu : update s f h t with
  | ok s' reqs =>
    obtain ⟨-, -, -, -, ⟨ns, hNS, -⟩, -⟩ := update_ok_shape s f h t s' reqs hu
    obtain ⟨c, hcmem, hcb⟩ := (processNewSponsors_ok_iff _ _ _).mp ⟨ns, hNS⟩ e he
    exact absurd hcb (hnomatch c hcmem)
  | consistencyError s' reqs =>
    obtain ⟨-, -, -, -, ⟨res, hNS, hres⟩, -⟩ := update_error_shape s f h t s' reqs hu
    obtain ⟨new, hshape, hmatch⟩ := processNewSponsors_error_shape _ _ _ _ hNS
    refine ⟨rfl, ?_⟩
    intro r hr
    simp only [UpdateResult.state] at hr
    rw [hres, hshape] at hr
    rcases List.mem_append.mp hr with hr | hr
    · exact Or.inl hr
    · obtain ⟨c, hcmem, hcb⟩ := hmatch r hr
      refine Or.inr (fun hrb => hnomatch c hcmem ?_)
      rw [hcb, hrb]

/-- Witness for C2: a pass fetching the NewSponsor at block 7 with no
PositionCreated anywhere fails. -/
theorem update_unmatched_newSponsor_fails_witness :
    nsRaw7 ∈ failingTransport "NewSponsor" (initialClientState 0).firstBlockToSearch 10 ∧
    (update (initialClientState 0) failingTransport 10 1).isOk = false :=
  ⟨by decide,
    (update_unmatched_newSponsor_fails (initialClientState 0) failingTransport 10 1 nsRaw7
      (by decide) (by decide)).1⟩

/-! ## Claim C5 — what the correlation is checked against -/

/-- Claim C5 counterexample: a synchronize pass whose fetch returns no
PositionCreated event at all still accepts the NewSponsor event at block 5,
correlating it against the PositionCreated record cached by an earlier pass
and copying that record's amounts — so a PositionCreated record cached from
an earlier pass does satisfy the correlation, contrary to the claim. -/
theorem correlation_same_pass_counterexample :
    nsOnlyTransport "PositionCreated" cachedCreateState.firstBlockToSearch 10 = [] ∧
    nsRaw5 ∈ nsOnlyTransport "NewSponsor" cachedCreateState.firstBlockToSearch 10 ∧
    (update cachedCreateState nsOnlyTransport 10 1).isOk = true ∧
    getAllNewSponsorEvents ((update cachedCreateState nsOnlyTransport 10 1).state) =
      [toNewSponsorRecord nsRaw5 (toCreateRecord pcRaw5)] := by decide

/-- Claim C5 amended: each fetched NewSponsor event is correlated by exact
block-number equality against the whole createEvents sequence as of the
correlation step — records cached by earlier passes as well as the
PositionCreated events fetched in the same pass; the call completes exactly
when every fetched NewSponsor event finds a match in that pool. -/
theorem update_correlation_pool (s : ClientState) (f : Transport) (h t : Nat) :
    (update s f h t).isOk = true ↔
      ∀ e ∈ f "NewSponsor" s.firstBlockToSearch h,
        ∃ c ∈ s.createEvents ++
            (f "PositionCreated" s.firstBlockToSearch h).map toCreateRecord,
          c.blockNumber = e.blockNumber := by
  cases hNS : processNewSponsors
      (s.createEvents ++ (f "PositionCreated" s.firstBlockToSearch h).map toCreateRecord)
      s.newSponsorEvents (f "NewSponsor" s.firstBlockToSearch h) with
  | ok ns =>
    have hval : (update s f h t).isOk = true := by
      simp [update, hNS, UpdateResult.isOk]
    exact iff_of_true hval ((processNewSponsors_ok_iff _ _ _).mp ⟨ns, hNS⟩)
  | error res =>
    have hval : (update s f h t).isOk = false := by
      simp [update, hNS, UpdateResult.isOk]
    refine iff_of_false (by simp [hval]) ?_
    intro hall
    obtain ⟨ns, hok⟩ := (processNewSponsors_ok_iff _ _ _).mpr hall
    rw [hNS] at hok
    exact Except.noConfusion hok

/-! ## Claim C4 — snapshot semantics of the accessors -/

theorem derefArray_cons_hit {p : Nat × List EventRecord} {rest : ArrayStore} {i : Nat}
    (h : p.1 = i) : derefArray (p :: rest) i = p.2 := by
  unfold derefArray
  rw [List.find?_cons_of_pos _ (by simp [h])]
  rfl

theorem derefArray_cons_skip {p : Nat × List EventRecord} {rest : ArrayStore} {i : Nat}
    (h : ¬ p.1 = i) : derefArray (p :: rest) i = derefArray rest i := by
  unfold derefArray
  rw [List.find?_cons_of_neg _ (by simp [h])]

theorem derefArray_pushAll (st : ArrayStore) (j : Nat) (xs : List EventRecord) (i : Nat) :
    derefArray (pushAll st j xs) i = derefArray st i ∨
    derefArray (pushAll st j xs) i = derefArray st i ++ xs := by
  induction st with
  | nil => exact Or.inl rfl
  | cons p rest ih =>
    have hmap : pushAll (p :: rest) j xs =
        (if p.1 == j then (p.1, p.2 ++ xs) else p) :: pushAll rest j xs := by
      simp [pushAll]
    by_cases hpj : p.1 = j
    · have hhd : (if p.1 == j then (p.1, p.2 ++ xs) else p) = (p.1, p.2 ++ xs) := by
        simp [hpj]
      rw [hmap, hhd]
      by_cases hpi : p.1 = i
      · right
        rw [derefArray_cons_hit (p := (p.1, p.2 ++ xs)) hpi, derefArray_cons_hit hpi]
      · rw [derefArray_cons_skip (p := (p.1, p.2 ++ xs)) hpi, derefArray_cons_skip hpi]
        exact ih
    · have hhd : (if p.1 == j then (p.1, p.2 ++ xs) else p) = p := by
        simp [hpj]
      rw [hmap, hhd]
      by_cases hpi : p.1 = i
      · left
        rw [derefArray_cons_hit hpi, derefArray_cons_hit hpi]
      · rw [derefArray_cons_skip hpi, derefArray_cons_skip hpi]
        exact ih

theorem derefArray_replace (st : ArrayStore) (j : Nat) (ns : List EventRecord) (i : Nat) :
    derefArray (st.map (fun p => if p.1 == j then (p.1, ns) else p)) i = derefArray st i ∨
    (i = j ∧ derefArray (st.map (fun p => if p.1 == j then (p.1, ns) else p)) i = ns) := by
  induction st with
  | nil => exact Or.inl rfl
  | cons p rest ih =>
    have hmap : (p :: rest).map (fun p => if p.1 == j then ((p.1 : Nat), ns) else p) =
        (if p.1 == j then (p.1, ns) else p) ::
          rest.map (fun p => if p.1 == j then (p.1, ns) else p) := by
      simp
    by_cases hpj : p.1 = j
    · have hhd : (if p.1 == j then ((p.1 : Nat), ns) else p) = (p.1, ns) := by
        simp [hpj]
      rw [hmap, hhd]
      by_cases hpi : p.1 = i
      · right
        refine ⟨by rw [← hpi, hpj], ?_⟩
        rw [derefArray_cons_hit (p := (p.1, ns)) hpi]
      · rw [derefArray_cons_skip (p := (p.1, ns)) hpi, derefArray_cons_skip hpi]
        exact ih
    · have hhd : (if p.1 == j then ((p.1 : Nat), ns) else p) = p := by
        simp [hpj]
      rw [hmap, hhd]
      by_cases hpi : p.1 = i
      · left
        rw [derefArray_cons_hit hpi, derefArray_cons_hit hpi]
      · rw [derefArray_cons_skip hpi, derefArray_cons_skip hpi]
        exact ih

theorem growsTo_trans {a b c : ArrayStore} (h1 : growsTo a b) (h2 : growsTo b c) :
    growsTo a c := by
  intro i
  obtain ⟨t1, e1⟩ := h1 i
  obtain ⟨t2, e2⟩ := h2 i
  exact ⟨t1 ++ t2, by rw [e2, e1, List.append_assoc]⟩

theorem growsTo_pushAll (st : ArrayStore) (j : Nat) (xs : List EventRecord) :
    growsTo st (pushAll st j xs) := by
  intro i
  rcases derefArray_pushAll st j xs i with h | h
  · exact ⟨[], by rw [h, List.append_nil]⟩
  · exact ⟨xs, h⟩

theorem growsTo_replace (st : ArrayStore) (j : Nat) (ns : List EventRecord)
    (zs : List EventRecord) (hns : ns = derefArray st j ++ zs) :
    growsTo st (st.map (fun p => if p.1 == j then (p.1, ns) else p)) := by
  intro i
  rcases derefArray_replace st j ns i with h | ⟨hij, h⟩
  · exact ⟨[], by rw [h, List.append_nil]⟩
  · subst hij
    exact ⟨zs, by rw [h, hns]⟩

theorem derefArray_all_nil (l : ArrayStore) (hl : ∀ p ∈ l, p.2 = ([] : List EventRecord))
    (i : Nat) : derefArray l i = [] := by
  induction l with
  | nil => rfl
  | cons p rest ih =>
    by_cases hpi : p.1 = i
    · rw [derefArray_cons_hit hpi]
      exact hl p (List.mem_cons_self p rest)
    · rw [derefArray_cons_skip hpi]
      exact ih (fun q hq => hl q (List.mem_cons_of_mem p hq))

theorem derefArray_append_nil (st l : ArrayStore)
    (hl : ∀ p ∈ l, p.2 = ([] : List EventRecord)) (i : Nat) :
    derefArray (st ++ l) i = derefArray st i := by
  induction st with
  | nil => simpa using derefArray_all_nil l hl i
  | cons p rest ih =>
    by_cases hpi : p.1 = i
    · rw [List.cons_append, derefArray_cons_hit hpi, derefArray_cons_hit hpi]
    · rw [List.cons_append, derefArray_cons_skip hpi, derefArray_cons_skip hpi]
      exact ih

theorem derefArray_pushAll_ne (st : ArrayStore) (j : Nat) (xs : List EventRecord)
    (i : Nat) (hij : i ≠ j) :
    derefArray (pushAll st j xs) i = derefArray st i := by
  induction st with
  | nil => rfl
  | cons p rest ih =>
    have hmap : pushAll (p :: rest) j xs =
        (if p.1 == j then (p.1, p.2 ++ xs) else p) :: pushAll rest j xs := by
      simp [pushAll]
    rw [hmap]
    by_cases hpi : p.1 = i
    · have hpj : ¬ p.1 = j := by rw [hpi]; exact hij
      have hhd : (if p.1 == j then (p.1, p.2 ++ xs) else p) = p := by simp [hpj]
      rw [hhd, derefArray_cons_hit hpi, derefArray_cons_hit hpi]
    · have hkey : (if p.1 == j then (p.1, p.2 ++ xs) else p).1 = p.1 := by
        by_cases hpj : p.1 = j <;> simp [hpj]
      rw [derefArray_cons_skip (by rw [hkey]; exact hpi), derefArray_cons_skip hpi]
      exact ih

theorem derefArray_replace_ne (st : ArrayStore) (j : Nat) (ns : List EventRecord)
    (i : Nat) (hij : i ≠ j) :
    derefArray (st.map (fun p => if p.1 == j then (p.1, ns) else p)) i =
      derefArray st i := by
  rcases derefArray_replace st j ns i with hcase | ⟨hij2, -⟩
  · exact hcase
  · exact absurd hij2 hij

theorem updateRef_keeps_refs (s : RefClientState) (f : Transport) (h t : Nat) :
    ((updateRef s f h t).state).liquidationEventsRef = s.liquidationEventsRef ∧
    ((updateRef s f h t).state).disputeEventsRef = s.disputeEventsRef ∧
    ((updateRef s f h t).state).disputeSettlementEventsRef = s.disputeSettlementEventsRef ∧
    ((updateRef s f h t).state).newSponsorEventsRef = s.newSponsorEventsRef ∧
    ((updateRef s f h t).state).depositEventsRef = s.depositEventsRef ∧
    ((updateRef s f h t).state).createEventsRef = s.createEventsRef ∧
    ((updateRef s f h t).state).withdrawEventsRef = s.withdrawEventsRef ∧
    ((updateRef s f h t).state).redeemEventsRef = s.redeemEventsRef ∧
    ((updateRef s f h t).state).regularFeeEventsRef = s.regularFeeEventsRef ∧
    ((updateRef s f h t).state).finalFeeEventsRef = s.finalFeeEventsRef ∧
    ((updateRef s f h t).state).liquidationWithdrawnEventsRef = s.liquidationWithdrawnEventsRef ∧
    ((updateRef s f h t).state).settleExpiredPositionEventsRef = s.settleExpiredPositionEventsRef ∧
    ((updateRef s f h t).state).nextId = s.nextId := by
  cases hNS : processNewSponsors
        (derefArray (pushAll (pushAll (pushAll (pushAll s.store s.liquidationEventsRef
            ((f "LiquidationCreated" s.firstBlockToSearch h).map toLiquidationRecord))
          s.disputeEventsRef
            ((f "LiquidationDisputed" s.firstBlockToSearch h).map toDisputeRecord))
          s.disputeSettlementEventsRef
            ((f "DisputeSettled" s.firstBlockToSearch h).map toDisputeSettlementRecord))
          s.createEventsRef
            ((f "PositionCreated" s.firstBlockToSearch h).map toCreateRecord))
          s.createEventsRef)
        (derefArray (pushAll (pushAll (pushAll (pushAll s.store s.liquidationEventsRef
            ((f "LiquidationCreated" s.firstBlockToSearch h).map toLiquidationRecord))
          s.disputeEventsRef
            ((f "LiquidationDisputed" s.firstBlockToSearch h).map toDisputeRecord))
          s.disputeSettlementEventsRef
            ((f "DisputeSettled" s.firstBlockToSearch h).map toDisputeSettlementRecord))
          s.createEventsRef
            ((f "PositionCreated" s.firstBlockToSearch h).map toCreateRecord))
          s.newSponsorEventsRef)
        (f "NewSponsor" s.firstBlockToSearch h) with
  | error res =>
    simp [updateRef, hNS, RefUpdateResult.state]
  | ok ns =>
    simp [updateRef, hNS, RefUpdateResult.state]

theorem updateRef_preserves_other (s : RefClientState) (f : Transport) (h t : Nat) (i : Nat)
    (n1 : i ≠ s.liquidationEventsRef) (n2 : i ≠ s.disputeEventsRef)
    (n3 : i ≠ s.disputeSettlementEventsRef) (n4 : i ≠ s.newSponsorEventsRef)
    (n5 : i ≠ s.depositEventsRef) (n6 : i ≠ s.createEventsRef)
    (n7 : i ≠ s.withdrawEventsRef) (n8 : i ≠ s.redeemEventsRef)
    (n9 : i ≠ s.regularFeeEventsRef) (n10 : i ≠ s.finalFeeEventsRef)
    (n11 : i ≠ s.liquidationWithdrawnEventsRef)
    (n12 : i ≠ s.settleExpiredPositionEventsRef) :
    derefArray ((updateRef s f h t).state.store) i = derefArray s.store i := by
  cases hNS : processNewSponsors
        (derefArray (pushAll (pushAll (pushAll (pushAll s.store s.liquidationEventsRef
            ((f "LiquidationCreated" s.firstBlockToSearch h).map toLiquidationRecord))
          s.disputeEventsRef
            ((f "LiquidationDisputed" s.firstBlockToSearch h).map toDisputeRecord))
          s.disputeSettlementEventsRef
            ((f "DisputeSettled" s.firstBlockToSearch h).map toDisputeSettlementRecord))
          s.createEventsRef
            ((f "PositionCreated" s.firstBlockToSearch h).map toCreateRecord))
          s.createEventsRef)
        (derefArray (pushAll (pushAll (pushAll (pushAll s.store s.liquidationEventsRef
            ((f "LiquidationCreated" s.firstBlockToSearch h).map toLiquidationRecord))
          s.disputeEventsRef
            ((f "LiquidationDisputed" s.firstBlockToSearch h).map toDisputeRecord))
          s.disputeSettlementEventsRef
            ((f "DisputeSettled" s.firstBlockToSearch h).map toDisputeSettlementRecord))
          s.createEventsRef
            ((f "PositionCreated" s.firstBlockToSearch h).map toCreateRecord))
          s.newSponsorEventsRef)
        (f "NewSponsor" s.firstBlockToSearch h) with
  | error res =>
    simp only [updateRef, hNS, RefUpdateResult.state]
    rw [derefArray_replace_ne _ _ _ _ n4,
        derefArray_pushAll_ne _ _ _ _ n6, derefArray_pushAll_ne _ _ _ _ n3,
        derefArray_pushAll_ne _ _ _ _ n2, derefArray_pushAll_ne _ _ _ _ n1]
  | ok ns =>
    simp only [updateRef, hNS, RefUpdateResult.state]
    rw [derefArray_pushAll_ne _ _ _ _ n12, derefArray_pushAll_ne _ _ _ _ n11,
        derefArray_pushAll_ne _ _ _ _ n10, derefArray_pushAll_ne _ _ _ _ n9,
        derefArray_pushAll_ne _ _ _ _ n8, derefArray_pushAll_ne _ _ _ _ n7,
        derefArray_pushAll_ne _ _ _ _ n5, derefArray_replace_ne _ _ _ _ n4,
        derefArray_pushAll_ne _ _ _ _ n6, derefArray_pushAll_ne _ _ _ _ n3,
        derefArray_pushAll_ne _ _ _ _ n2, derefArray_pushAll_ne _ _ _ _ n1]

theorem updateRefChain_preserves_other (i : Nat) (steps : List SyncStep) :
    ∀ s2 : RefClientState,
      i ≠ s2.liquidationEventsRef → i ≠ s2.disputeEventsRef →
      i ≠ s2.disputeSettlementEventsRef → i ≠ s2.newSponsorEventsRef →
      i ≠ s2.depositEventsRef → i ≠ s2.createEventsRef →
      i ≠ s2.withdrawEventsRef → i ≠ s2.redeemEventsRef →
      i ≠ s2.regularFeeEventsRef → i ≠ s2.finalFeeEventsRef →
      i ≠ s2.liquidationWithdrawnEventsRef → i ≠ s2.settleExpiredPositionEventsRef →
      derefArray ((updateRefChain s2 steps).store) i = derefArray s2.store i := by
  induction steps with
  | nil =>
    intro s2 _ _ _ _ _ _ _ _ _ _ _ _
    rfl
  | cons st rest ih =>
    intro s2 n1 n2 n3 n4 n5 n6 n7 n8 n9 n10 n11 n12
    obtain ⟨r1, r2, r3, r4, r5, r6, r7, r8, r9, r10, r11, r12, -⟩ :=
      updateRef_keeps_refs s2 st.transport st.height st.time
    have hstep := updateRef_preserves_other s2 st.transport st.height st.time i
      n1 n2 n3 n4 n5 n6 n7 n8 n9 n10 n11 n12
    have hchain := ih ((updateRef s2 st.transport st.height st.time).state)
      (by rw [r1]; exact n1) (by rw [r2]; exact n2) (by rw [r3]; exact n3)
      (by rw [r4]; exact n4) (by rw [r5]; exact n5) (by rw [r6]; exact n6)
      (by rw [r7]; exact n7) (by rw [r8]; exact n8) (by rw [r9]; exact n9)
      (by rw [r10]; exact n10) (by rw [r11]; exact n11) (by rw [r12]; exact n12)
    simp only [updateRefChain]
    exact hchain.trans hstep

/-- Claim C4 counterexample: the accessor returns the live array (its
reference), and a later synchronize call pushes into that same array: reading
through the reference returned before the call yields different contents
afterwards — the previously returned sequence was mutated. -/
theorem snapshot_counterexample :
    derefArray ((updateRef (initialRefClientState 0) liqOnlyTransport 10 1).state.store)
        (getAllLiquidationEventsRef (initialRefClientState 0)) ≠
      derefArray (initialRefClientState 0).store
        (getAllLiquidationEventsRef (initialRefClientState 0)) := by decide

/-- Claim C4 amended: accessors return the live arrays, and a later
synchronize call appends to them in place — the contents read through any
previously returned reference grow by an appended tail (the pre-call
snapshot stays a prefix, existing elements keep length-and-order) — while
`reset` rebinds the twelve fields to freshly allocated arrays: the reset
itself changes no contents readable through any reference, any array
identifier issued before the reset (every identifier held or returned lies
below the allocation counter, which the constructor establishes and, as the
last two conjuncts show, both mutators preserve) reads back exactly its
pre-reset contents after the reset and any sequence of later synchronize
calls, and the allocation discipline is maintained. -/
theorem updateRef_appends_in_place (s : RefClientState) (f : Transport) (h t : Nat) :
    growsTo s.store ((updateRef s f h t).state.store) ∧
    (∀ i : Nat, derefArray (clearStateRef s).store i = derefArray s.store i) ∧
    (∀ (steps : List SyncStep) (i : Nat), i < s.nextId →
      derefArray ((updateRefChain (clearStateRef s) steps).store) i =
        derefArray s.store i) ∧
    (refsBelowNext s → refsBelowNext ((updateRef s f h t).state)) ∧
    refsBelowNext (clearStateRef s) := by
  have hreset : ∀ i : Nat, derefArray (clearStateRef s).store i = derefArray s.store i := by
    intro i
    refine derefArray_append_nil s.store _ ?_ i
    intro p hp
    simp only [List.mem_cons] at hp
    rcases hp with hp | hp | hp | hp | hp | hp | hp | hp | hp | hp | hp | hp | hp <;>
      first
        | (rw [hp])
        | exact absurd hp (List.not_mem_nil p)
  refine ⟨?_, hreset, ?_, ?_, ?_⟩
  · cases hNS : processNewSponsors
        (derefArray (pushAll (pushAll (pushAll (pushAll s.store s.liquidationEventsRef
            ((f "LiquidationCreated" s.firstBlockToSearch h).map toLiquidationRecord))
          s.disputeEventsRef
            ((f "LiquidationDisputed" s.firstBlockToSearch h).map toDisputeRecord))
          s.disputeSettlementEventsRef
            ((f "DisputeSettled" s.firstBlockToSearch h).map toDisputeSettlementRecord))
          s.createEventsRef
            ((f "PositionCreated" s.firstBlockToSearch h).map toCreateRecord))
          s.createEventsRef)
        (derefArray (pushAll (pushAll (pushAll (pushAll s.store s.liquidationEventsRef
            ((f "LiquidationCreated" s.firstBlockToSearch h).map toLiquidationRecord))
          s.disputeEventsRef
            ((f "LiquidationDisputed" s.firstBlockToSearch h).map toDisputeRecord))
          s.disputeSettlementEventsRef
            ((f "DisputeSettled" s.firstBlockToSearch h).map toDisputeSettlementRecord))
          s.createEventsRef
            ((f "PositionCreated" s.firstBlockToSearch h).map toCreateRecord))
          s.newSponsorEventsRef)
        (f "NewSponsor" s.firstBlockToSearch h) with
    | error res =>
      obtain ⟨new, hres, -⟩ := processNewSponsors_error_shape _ _ _ _ hNS
      simp only [updateRef, hNS, RefUpdateResult.state]
      refine growsTo_trans (growsTo_trans (growsTo_trans (growsTo_trans
        (fun i => ⟨[], by rw [List.append_nil]⟩)
        (growsTo_pushAll _ _ _)) (growsTo_pushAll _ _ _)) (growsTo_pushAll _ _ _))
        (growsTo_trans (growsTo_pushAll _ _ _) (growsTo_replace _ _ _ new hres))
    | ok ns =>
      obtain ⟨new, hns, -⟩ := processNewSponsors_ok_shape _ _ _ _ hNS
      simp only [updateRef, hNS, RefUpdateResult.state]
      refine growsTo_trans (growsTo_trans (growsTo_trans (growsTo_trans
        (fun i => ⟨[], by rw [List.append_nil]⟩)
        (growsTo_pushAll _ _ _)) (growsTo_pushAll _ _ _)) (growsTo_pushAll _ _ _))
        (growsTo_trans (growsTo_trans (growsTo_trans (growsTo_trans
          (growsTo_trans (growsTo_trans (growsTo_trans (growsTo_trans
            (growsTo_pushAll _ _ _) (growsTo_replace _ _ _ new hns))
            (growsTo_pushAll _ _ _)) (growsTo_pushAll _ _ _)) (growsTo_pushAll _ _ _))
            (growsTo_pushAll _ _ _)) (growsTo_pushAll _ _ _)) (growsTo_pushAll _ _ _))
          (growsTo_pushAll _ _ _))
  · intro steps i hi
    rw [updateRefChain_preserves_other i steps (clearStateRef s)
      (Nat.ne_of_lt hi)
      (Nat.ne_of_lt (lt_of_lt_of_le hi (Nat.le_add_right s.nextId 1)))
      (Nat.ne_of_lt (lt_of_lt_of_le hi (Nat.le_add_right s.nextId 2)))
      (Nat.ne_of_lt (lt_of_lt_of_le hi (Nat.le_add_right s.nextId 3)))
      (Nat.ne_of_lt (lt_of_lt_of_le hi (Nat.le_add_right s.nextId 4)))
      (Nat.ne_of_lt (lt_of_lt_of_le hi (Nat.le_add_right s.nextId 5)))
      (Nat.ne_of_lt (lt_of_lt_of_le hi (Nat.le_add_right s.nextId 6)))
      (Nat.ne_of_lt (lt_of_lt_of_le hi (Nat.le_add_right s.nextId 7)))
      (Nat.ne_of_lt (lt_of_lt_of_le hi (Nat.le_add_right s.nextId 8)))
      (Nat.ne_of_lt (lt_of_lt_of_le hi (Nat.le_add_right s.nextId 9)))
      (Nat.ne_of_lt (lt_of_lt_of_le hi (Nat.le_add_right s.nextId 10)))
      (Nat.ne_of_lt (lt_of_lt_of_le hi (Nat.le_add_right s.nextId 11)))]
    exact hreset i
  · intro hb
    obtain ⟨r1, r2, r3, r4, r5, r6, r7, r8, r9, r10, r11, r12, rn⟩ :=
      updateRef_keeps_refs s f h t
    unfold refsBelowNext at hb ⊢
    rw [r1, r2, r3, r4, r5, r6, r7, r8, r9, r10, r11, r12, rn]
    exact hb
  · unfold refsBelowNext
    refine ⟨?_, ?_, ?_, ?_, ?_, ?_, ?_, ?_, ?_, ?_, ?_, ?_⟩ <;>
      (simp only [clearStateRef]; omega)

/-- Witness for the amended C4: from the freshly constructed client, the
identifier 0 (the liquidation array the accessor returns) is below the
allocation counter and reads back its original contents after a reset
followed by two synchronize passes; the allocation discipline holds
initially and after an update. -/
theorem updateRef_appends_in_place_witness :
    0 < (initialRefClientState 0).nextId ∧
    derefArray ((updateRefChain (clearStateRef (initialRefClientState 0)) syncSteps2).store) 0 =
      derefArray (initialRefClientState 0).store 0 ∧
    refsBelowNext (initialRefClientState 0) ∧
    refsBelowNext ((updateRef (initialRefClientState 0) liqOnlyTransport 10 1).state) :=
  ⟨by decide,
   (updateRef_appends_in_place (initialRefClientState 0) liqOnlyTransport 10 1).2.2.1
     syncSteps2 0 (by decide),
   by decide,
   (updateRef_appends_in_place (initialRefClientState 0) liqOnlyTransport 10 1).2.2.2.1
     (by decide)⟩

/-! ## Claim C10 — effects of a failed pass and duplication on retry -/

/-- Claim C10 (confirmed): when a pass fails during NewSponsor correlation,
the four kinds fetched before NewSponsor stay appended, the seven kinds after
it receive nothing, and the cursor and timestamp are unchanged; a following
successful pass therefore re-scans from the same cursor, and — when the
transport answers the re-scan for the first four kinds with the same events —
appends those already-appended events a second time, duplicating them. -/
theorem failed_pass_duplicates (s : ClientState) (f₁ f₂ : Transport) (h₁ t₁ h₂ t₂ : Nat)
    (s' s'' : ClientState) (reqs₁ reqs₂ : List EventRequest)
    (hfail : update s f₁ h₁ t₁ = UpdateResult.consistencyError s' reqs₁)
    (hok : update s' f₂ h₂ t₂ = UpdateResult.ok s'' reqs₂)
    (hLiq : f₂ "LiquidationCreated" s.firstBlockToSearch h₂ =
      f₁ "LiquidationCreated" s.firstBlockToSearch h₁)
    (hDisp : f₂ "LiquidationDisputed" s.firstBlockToSearch h₂ =
      f₁ "LiquidationDisputed" s.firstBlockToSearch h₁)
    (hDS : f₂ "DisputeSettled" s.firstBlockToSearch h₂ =
      f₁ "DisputeSettled" s.firstBlockToSearch h₁)
    (hPC : f₂ "PositionCreated" s.firstBlockToSearch h₂ =
      f₁ "PositionCreated" s.firstBlockToSearch h₁) :
    s'.liquidationEvents = s.liquidationEvents ++
      (f₁ "LiquidationCreated" s.firstBlockToSearch h₁).map toLiquidationRecord ∧
    s'.disputeEvents = s.disputeEvents ++
      (f₁ "LiquidationDisputed" s.firstBlockToSearch h₁).map toDisputeRecord ∧
    s'.disputeSettlementEvents = s.disputeSettlementEvents ++
      (f₁ "DisputeSettled" s.firstBlockToSearch h₁).map toDisputeSettlementRecord ∧
    s'.createEvents = s.createEvents ++
      (f₁ "PositionCreated" s.firstBlockToSearch h₁).map toCreateRecord ∧
    s'.depositEvents = s.depositEvents ∧
    s'.withdrawEvents = s.withdrawEvents ∧
    s'.redeemEvents = s.redeemEvents ∧
    s'.regularFeeEvents = s.regularFeeEvents ∧
    s'.finalFeeEvents = s.finalFeeEvents ∧
    s'.liquidationWithdrawnEvents = s.liquidationWithdrawnEvents ∧
    s'.settleExpiredPositionEvents = s.settleExpiredPositionEvents ∧
    s'.firstBlockToSearch = s.firstBlockToSearch ∧
    s'.lastUpdateTimestamp = s.lastUpdateTimestamp ∧
    (∀ r ∈ reqs₂, r.2.1 = s.firstBlockToSearch) ∧
    s''.liquidationEvents = s.liquidationEvents ++
      (f₁ "LiquidationCreated" s.firstBlockToSearch h₁).map toLiquidationRecord ++
      (f₁ "LiquidationCreated" s.firstBlockToSearch h₁).map toLiquidationRecord ∧
    s''.disputeEvents = s.disputeEvents ++
      (f₁ "LiquidationDisputed" s.firstBlockToSearch h₁).map toDisputeRecord ++
      (f₁ "LiquidationDisputed" s.firstBlockToSearch h₁).map toDisputeRecord ∧
    s''.disputeSettlementEvents = s.disputeSettlementEvents ++
      (f₁ "DisputeSettled" s.firstBlockToSearch h₁).map toDisputeSettlementRecord ++
      (f₁ "DisputeSettled" s.firstBlockToSearch h₁).map toDisputeSettlementRecord ∧
    s''.createEvents = s.createEvents ++
      (f₁ "PositionCreated" s.firstBlockToSearch h₁).map toCreateRecord ++
      (f₁ "PositionCreated" s.firstBlockToSearch h₁).map toCreateRecord := by
  obtain ⟨e1, e2, e3, e4, -, e6, e7, e8, e9, e10, e11, e12, efb, ets, -⟩ :=
    update_error_shape s f₁ h₁ t₁ s' reqs₁ hfail
  obtain ⟨o1, o2, o3, o4, -, -, -, -, -, -, -, -, -, -, oreqs⟩ :=
    update_ok_shape s' f₂ h₂ t₂ s'' reqs₂ hok
  refine ⟨e1, e2, e3, e4, e6, e7, e8, e9, e10, e11, e12, efb, ets, ?_, ?_, ?_, ?_, ?_⟩
  · intro r hr
    rw [oreqs] at hr
    obtain ⟨k, -, hk⟩ := List.mem_map.mp hr
    rw [← hk, efb]
  · rw [o1, e1, efb, hLiq]
  · rw [o2, e2, efb, hDisp]
  · rw [o3, e3, efb, hDS]
  · rw [o4, e4, efb, hPC]

/-- Witness for C10: a pass over blocks 0-10 fetching the liquidation at
block 5 and the unmatched NewSponsor at block 7 fails; the retry whose fetch
returns the same liquidation succeeds and stores that liquidation twice. -/
theorem failed_pass_duplicates_witness :
    ((update ((update (initialClientState 0) failingTransport 10 1).state)
        liqOnlyTransport 10 2).state).liquidationEvents =
      (initialClientState 0).liquidationEvents ++
        (failingTransport "LiquidationCreated" (initialClientState 0).firstBlockToSearch 10).map
          toLiquidationRecord ++
        (failingTransport "LiquidationCreated" (initialClientState 0).firstBlockToSearch 10).map
          toLiquidationRecord := by
  obtain ⟨-, -, -, -, -, -, -, -, -, -, -, -, -, -, hdup, -⟩ :=
    failed_pass_duplicates (initialClientState 0) failingTransport liqOnlyTransport
      10 1 10 2 _ _ _ _ rfl rfl rfl rfl rfl rfl
  exact hdup

/-! ## Claim C3 — cursor monotonicity and scanned ranges -/

/-- Claim C3 (confirmed): over any sequence of successful synchronize calls
with monotonically increasing chain heights (never below cursor − 1), the
cursor is non-decreasing across the whole run; every call issues its twelve
fetch requests over the inclusive range from its cursor to its height and
leaves the cursor at height + 1; and each call's scan starts exactly one past
the previous call's height, so no block is scanned twice and none skipped. -/
theorem sync_cursor_monotone (s : ClientState) (steps : List SyncStep)
    (hok : ∀ e ∈ updateTrace s steps, (e.2.2).isOk = true)
    (hmono : List.Chain (· ≤ ·) (s.firstBlockToSearch - 1)
      (steps.map (fun st => st.height))) :
    List.Chain (· ≤ ·) s.firstBlockToSearch
      ((updateTrace s steps).map (fun e => e.2.2.state.firstBlockToSearch)) ∧
    (∀ e ∈ updateTrace s steps,
      e.2.2.requests = allEventNames.map (fun k => (k, e.1.firstBlockToSearch, e.2.1.height)) ∧
      e.2.2.state.firstBlockToSearch = e.2.1.height + 1) ∧
    List.Chain' (fun a b => b.1.firstBlockToSearch = a.2.1.height + 1)
      (updateTrace s steps) := by
  induction steps generalizing s with
  | nil =>
    simp only [updateTrace, List.map_nil]
    exact ⟨List.Chain.nil, by simp, List.chain'_nil⟩
  | cons st rest ih =>
    simp only [updateTrace] at hok ⊢
    rw [List.map_cons] at hmono
    rcases List.chain_cons.mp hmono with ⟨h1, h2⟩
    cases hr : update s st.transport st.height st.time with
    | consistencyError s1 reqs1 =>
      have := hok _ (List.mem_cons_self _ _)
      rw [hr] at this
      exact absurd this (by simp [UpdateResult.isOk])
    | ok s1 reqs1 =>
      obtain hshape := update_ok_shape s st.transport st.height st.time s1 reqs1 hr
      have hfb : s1.firstBlockToSearch = st.height + 1 :=
        hshape.2.2.2.2.2.2.2.2.2.2.2.2.1
      have hreqs : reqs1 = allEventNames.map (fun k => (k, s.firstBlockToSearch, st.height)) :=
        hshape.2.2.2.2.2.2.2.2.2.2.2.2.2.2
      have hok2 : ∀ e ∈ updateTrace s1 rest, (e.2.2).isOk = true := by
        intro e he
        refine hok e (List.mem_cons_of_mem _ ?_)
        rw [hr]
        exact he
      have hmono2 : List.Chain (· ≤ ·) (s1.firstBlockToSearch - 1)
          (rest.map (fun st => st.height)) := by
        rw [hfb]
        simpa using h2
      obtain ⟨ihchain, ihreqs, ihtile⟩ := ih s1 hok2 hmono2
      refine ⟨?_, ?_, ?_⟩
      · simp only [List.map_cons]
        refine List.chain_cons.mpr ⟨?_, ?_⟩
        · simp only [UpdateResult.state, hfb]
          exact Nat.sub_le_iff_le_add.mp h1
        · simpa [UpdateResult.state] using ihchain
      · intro e he
        rcases List.mem_cons.mp he with he | he
        · subst he
          exact ⟨hreqs, by simpa [UpdateResult.state] using hfb⟩
        · exact ihreqs e he
      · refine List.chain'_cons'.mpr ⟨?_, ihtile⟩
        intro y hy
        cases rest with
        | nil => simp [updateTrace] at hy
        | cons st2 rest2 =>
          simp only [updateTrace, List.head?, Option.mem_def, Option.some.injEq] at hy
          rw [← hy]
          simpa [UpdateResult.state] using hfb

/-- Witness for C3: two successful passes from cursor 50 at heights 100 and
120; the cursor sequence 50, 101, 121 is non-decreasing. -/
theorem sync_cursor_monotone_witness :
    (∀ e ∈ updateTrace (initialClientState 50) syncSteps2, (e.2.2).isOk = true) ∧
    List.Chain (· ≤ ·) ((initialClientState 50).firstBlockToSearch - 1)
      (syncSteps2.map (fun st => st.height)) ∧
    List.Chain (· ≤ ·) (initialClientState 50).firstBlockToSearch
      ((updateTrace (initialClientState 50) syncSteps2).map
        (fun e => e.2.2.state.firstBlockToSearch)) :=
  ⟨by decide, by decide,
    (sync_cursor_monotone (initialClientState 50) syncSteps2 (by decide) (by decide)).1⟩

/-! ## Claim C9 — block-number ordering of the cached sequences -/

theorem blockSorted_append (old new : List EventRecord) (fb : Nat)
    (hos : blockSorted old) (hob : ∀ e ∈ old, e.blockNumber < fb)
    (hns : blockSorted new) (hnb : ∀ e ∈ new, fb ≤ e.blockNumber) :
    blockSorted (old ++ new) := by
  unfold blockSorted at *
  rw [List.map_append, List.chain'_append]
  refine ⟨hos, hns, ?_⟩
  intro x hx y hy
  obtain ⟨ex, hex, hexx⟩ :=
    List.mem_map.mp (List.mem_of_getLast?_eq_some hx)
  obtain ⟨ey, hey, heyy⟩ :=
    List.mem_map.mp (List.mem_of_mem_head? hy)
  rw [← hexx, ← heyy]
  exact le_of_lt (lt_of_lt_of_le (hob ex hex) (hnb ey hey))

theorem blocks_eq_inv (new : List EventRecord) (l : List RawEvent) (fb h : Nat)
    (heq : new.map (fun r => r.blockNumber) = l.map (fun e => e.blockNumber))
    (hs : List.Chain' (· ≤ ·) (l.map (fun e => e.blockNumber)))
    (hb : ∀ e ∈ l, fb ≤ e.blockNumber ∧ e.blockNumber ≤ h) :
    blockSorted new ∧ ∀ r ∈ new, fb ≤ r.blockNumber ∧ r.blockNumber ≤ h := by
  constructor
  · unfold blockSorted
    rw [heq]
    exact hs
  · intro r hr
    have : r.blockNumber ∈ l.map (fun e => e.blockNumber) := by
      rw [← heq]
      exact List.mem_map.mpr ⟨r, hr, rfl⟩
    obtain ⟨e, he, hee⟩ := List.mem_map.mp this
    rw [← hee]
    exact hb e he

theorem mapped_inv (g : RawEvent → EventRecord) (hg : ∀ e, (g e).blockNumber = e.blockNumber)
    (l : List RawEvent) (fb h : Nat)
    (hs : List.Chain' (· ≤ ·) (l.map (fun e => e.blockNumber)))
    (hb : ∀ e ∈ l, fb ≤ e.blockNumber ∧ e.blockNumber ≤ h) :
    blockSorted (l.map g) ∧ ∀ r ∈ l.map g, fb ≤ r.blockNumber ∧ r.blockNumber ≤ h := by
  refine blocks_eq_inv (l.map g) l fb h ?_ hs hb
  rw [List.map_map]
  exact List.map_congr_left (fun e _ => hg e)

theorem inv_append_step (old new : List EventRecord) (fb h : Nat) (hle : fb ≤ h + 1)
    (hos : blockSorted old) (hob : ∀ e ∈ old, e.blockNumber < fb)
    (hinv : blockSorted new ∧ ∀ r ∈ new, fb ≤ r.blockNumber ∧ r.blockNumber ≤ h) :
    blockSorted (old ++ new) ∧ ∀ e ∈ old ++ new, e.blockNumber < h + 1 := by
  refine ⟨blockSorted_append old new fb hos hob hinv.1 (fun e he => (hinv.2 e he).1), ?_⟩
  intro e he
  rcases List.mem_append.mp he with he | he
  · exact lt_of_lt_of_le (hob e he) hle
  · exact Nat.lt_succ_of_le (hinv.2 e he).2

theorem update_ok_preserves_inv (s : ClientState) (f : Transport) (h t : Nat)
    (s' : ClientState) (reqs : List EventRequest)
    (hgood : goodFetch f s.firstBlockToSearch h) (hle : s.firstBlockToSearch ≤ h + 1)
    (hu : update s f h t = UpdateResult.ok s' reqs)
    (hsort : cacheSorted s) (hbound : cacheBounded s) :
    cacheSorted s' ∧ cacheBounded s' := by
  obtain ⟨o1, o2, o3, o4, ⟨ns, hNS, o5⟩, o6, o7, o8, o9, o10, o11, o12, ofb, -, -⟩ :=
    update_ok_shape s f h t s' reqs hu
  have hs1 := hsort s.liquidationEvents (by simp [allSequences])
  have hs2 := hsort s.disputeEvents (by simp [allSequences])
  have hs3 := hsort s.disputeSettlementEvents (by simp [allSequences])
  have hs4 := hsort s.newSponsorEvents (by simp [allSequences])
  have hs5 := hsort s.depositEvents (by simp [allSequences])
  have hs6 := hsort s.createEvents (by simp [allSequences])
  have hs7 := hsort s.withdrawEvents (by simp [allSequences])
  have hs8 := hsort s.redeemEvents (by simp [allSequences])
  have hs9 := hsort s.regularFeeEvents (by simp [allSequences])
  have hs10 := hsort s.finalFeeEvents (by simp [allSequences])
  have hs11 := hsort s.liquidationWithdrawnEvents (by simp [allSequences])
  have hs12 := hsort s.settleExpiredPositionEvents (by simp [allSequences])
  have hb1 := hbound s.liquidationEvents (by simp [allSequences])
  have hb2 := hbound s.disputeEvents (by simp [allSequences])
  have hb3 := hbound s.disputeSettlementEvents (by simp [allSequences])
  have hb4 := hbound s.newSponsorEvents (by simp [allSequences])
  have hb5 := hbound s.depositEvents (by simp [allSequences])
  have hb6 := hbound s.createEvents (by simp [allSequences])
  have hb7 := hbound s.withdrawEvents (by simp [allSequences])
  have hb8 := hbound s.redeemEvents (by simp [allSequences])
  have hb9 := hbound s.regularFeeEvents (by simp [allSequences])
  have hb10 := hbound s.finalFeeEvents (by simp [allSequences])
  have hb11 := hbound s.liquidationWithdrawnEvents (by simp [allSequences])
  have hb12 := hbound s.settleExpiredPositionEvents (by simp [allSequences])
  have k1 := inv_append_step _ _ _ h hle hs1 hb1
    (mapped_inv toLiquidationRecord (fun e => rfl) _ _ h
      (hgood "LiquidationCreated").1 (hgood "LiquidationCreated").2)
  have k2 := inv_append_step _ _ _ h hle hs2 hb2
    (mapped_inv toDisputeRecord (fun e => rfl) _ _ h
      (hgood "LiquidationDisputed").1 (hgood "LiquidationDisputed").2)
  have k3 := inv_append_step _ _ _ h hle hs3 hb3
    (mapped_inv toDisputeSettlementRecord (fun e => rfl) _ _ h
      (hgood "DisputeSettled").1 (hgood "DisputeSettled").2)
  have k6 := inv_append_step _ _ _ h hle hs6 hb6
    (mapped_inv toCreateRecord (fun e => rfl) _ _ h
      (hgood "PositionCreated").1 (hgood "PositionCreated").2)
  obtain ⟨nsNew, hnsNew, hnsBlocks⟩ := processNewSponsors_ok_shape _ _ _ _ hNS
  have k4 := inv_append_step s.newSponsorEvents nsNew _ h hle hs4 hb4
    (blocks_eq_inv nsNew _ _ h hnsBlocks (hgood "NewSponsor").1 (hgood "NewSponsor").2)
  have k5 := inv_append_step _ _ _ h hle hs5 hb5
    (mapped_inv toDepositRecord (fun e => rfl) _ _ h
      (hgood "Deposit").1 (hgood "Deposit").2)
  have k7 := inv_append_step _ _ _ h hle hs7 hb7
    (mapped_inv toWithdrawRecord (fun e => rfl) _ _ h
      (hgood "Withdrawal").1 (hgood "Withdrawal").2)
  have k8 := inv_append_step _ _ _ h hle hs8 hb8
    (mapped_inv toRedeemRecord (fun e => rfl) _ _ h
      (hgood "Redeem").1 (hgood "Redeem").2)
  have k9 := inv_append_step _ _ _ h hle hs9 hb9
    (mapped_inv toRegularFeeRecord (fun e => rfl) _ _ h
      (hgood "RegularFeesPaid").1 (hgood "RegularFeesPaid").2)
  have k10 := inv_append_step _ _ _ h hle hs10 hb10
    (mapped_inv toFinalFeeRecord (fun e => rfl) _ _ h
      (hgood "FinalFeesPaid").1 (hgood "FinalFeesPaid").2)
  have k11 := inv_append_step _ _ _ h hle hs11 hb11
    (mapped_inv toLiquidationWithdrawnRecord (fun e => rfl) _ _ h
      (hgood "LiquidationWithdrawn").1 (hgood "LiquidationWithdrawn").2)
  have k12 := inv_append_step _ _ _ h hle hs12 hb12
    (mapped_inv toSettleExpiredPositionRecord (fun e => rfl) _ _ h
      (hgood "SettleExpiredPosition").1 (hgood "SettleExpiredPosition").2)
  have hns' : s'.newSponsorEvents = s.newSponsorEvents ++ nsNew := by
    rw [o5, hnsNew]
  constructor
  · intro l hl
    simp only [allSequences, List.mem_cons, List.not_mem_nil, or_false] at hl
    rcases hl with hl | hl | hl | hl | hl | hl | hl | hl | hl | hl | hl | hl <;> subst hl
    · rw [o1]; exact k1.1
    · rw [o2]; exact k2.1
    · rw [o3]; exact k3.1
    · rw [hns']; exact k4.1
    · rw [o6]; exact k5.1
    · rw [o4]; exact k6.1
    · rw [o7]; exact k7.1
    · rw [o8]; exact k8.1
    · rw [o9]; exact k9.1
    · rw [o10]; exact k10.1
    · rw [o11]; exact k11.1
    · rw [o12]; exact k12.1
  · intro l hl
    simp only [allSequences, List.mem_cons, List.not_mem_nil, or_false] at hl
    rw [ofb]
    rcases hl with hl | hl | hl | hl | hl | hl | hl | hl | hl | hl | hl | hl <;> subst hl
    · rw [o1]; exact k1.2
    · rw [o2]; exact k2.2
    · rw [o3]; exact k3.2
    · rw [hns']; exact k4.2
    · rw [o6]; exact k5.2
    · rw [o4]; exact k6.2
    · rw [o7]; exact k7.2
    · rw [o8]; exact k8.2
    · rw [o9]; exact k9.2
    · rw [o10]; exact k10.2
    · rw [o11]; exact k11.2
    · rw [o12]; exact k12.2

theorem reachesOk_inv {s₀ s : ClientState} (hreach : ReachesOk s₀ s)
    (h₀s : cacheSorted s₀) (h₀b : cacheBounded s₀) :
    cacheSorted s ∧ cacheBounded s := by
  induction hreach with
  | refl => exact ⟨h₀s, h₀b⟩
  | sync f h t s' reqs hprev hgood hle hu ih =>
    exact update_ok_preserves_inv _ f h t s' reqs hgood hle hu ih.1 ih.2
  | reset hprev ih =>
    constructor
    · intro l hl
      simp only [clearState, allSequences, List.mem_cons, List.not_mem_nil, or_false] at hl
      rcases hl with hl | hl | hl | hl | hl | hl | hl | hl | hl | hl | hl | hl <;>
        (subst hl; exact List.chain'_nil)
    · intro l hl
      simp only [clearState, allSequences, List.mem_cons, List.not_mem_nil, or_false] at hl
      rcases hl with hl | hl | hl | hl | hl | hl | hl | hl | hl | hl | hl | hl <;>
        (subst hl; intro e he; exact absurd he (List.not_mem_nil e))

/-- Claim C9 counterexample: the state reached by a failing pass (liquidations
at blocks 3 and 5 appended, correlation failed, cursor unchanged) followed by
a second pass whose per-call fetches are again ascending and in range holds
the liquidation sequence [3, 5, 3, 5], which is not non-decreasing — so the
ordering invariant does not hold in every state reachable when failing
synchronize calls are included. -/
theorem ordering_invariant_counterexample :
    (update (initialClientState 0) failingTransportTwoLiq 10 0).isOk = false ∧
    ¬ cacheSorted ((update ((update (initialClientState 0) failingTransportTwoLiq 10 0).state)
        twoLiqTransport 10 1).state) := by decide

/-- Claim C9 amended: in every cache state reachable from a freshly
constructed client by successful synchronize calls — with well-behaved
fetches (ascending, in-range events) and monotonically increasing chain
heights — and by reset calls, every per-kind sequence is non-decreasing by
block number. -/
theorem reachable_cache_sorted (n : Nat) (s : ClientState)
    (hreach : ReachesOk (initialClientState n) s) : cacheSorted s := by
  refine (reachesOk_inv hreach ?_ ?_).1
  · intro l hl
    simp only [initialClientState, allSequences, List.mem_cons, List.not_mem_nil,
      or_false] at hl
    rcases hl with hl | hl | hl | hl | hl | hl | hl | hl | hl | hl | hl | hl <;>
      (subst hl; exact List.chain'_nil)
  · intro l hl
    simp only [initialClientState, allSequences, List.mem_cons, List.not_mem_nil,
      or_false] at hl
    rcases hl with hl | hl | hl | hl | hl | hl | hl | hl | hl | hl | hl | hl <;>
      (subst hl; intro e he; exact absurd he (List.not_mem_nil e))

/-- Witness for the amended C9: the state after one successful empty-fetch
pass at height 10 (reached from a fresh client) has all sequences sorted. -/
theorem reachable_cache_sorted_witness :
    cacheSorted ((update (initialClientState 0) emptyTransport 10 3).state) :=
  reachable_cache_sorted 0 _
    (ReachesOk.sync emptyTransport 10 3
      ((update (initialClientState 0) emptyTransport 10 3).state)
      ((update (initialClientState 0) emptyTransport 10 3).requests)
      (ReachesOk.refl _)
      (fun kind => ⟨by simp [emptyTransport], by simp [emptyTransport]⟩)
      (by decide)
      rfl)

end Protocol
